import Mathlib

/-!
# Library export (src/library/export.cpp)

A shallow embedding of the two exporters of `src/library/export.cpp`,
`ExportAsMalXml` and `ExportAsMarkdown`, and the properties of their output.

Conventions of the embedding:

* `std::wstring` is `String`, `int` is `Int` (no arithmetic of the file can
  overflow short of a library of 2^31 entries), `bool` is `Bool`.
* `AnimeDatabase.items` (a `std::map<int, Item>`) is the sequence of
  `(id, item)` pairs in the order the range-for loops visit them.
* The collaborators the file calls but does not define (translators, the
  change queue, settings, string comparison, the file sinks) are the fields of
  `Env`.
* A pugixml node handle is a value of `XmlNode`; a call that mutates the tree
  through a handle returns the updated node.
-/

namespace library

/-! ## Data model -/

/-- Modelled from the spec: the calendar date held by a `Date` that is set
(`base/time.h` is not among the sources). -/
structure CalendarDate where
  year : Nat
  month : Nat
  day : Nat
deriving DecidableEq, Repr

/-- Modelled from the spec: `Date` of `base/time.h`, a "nullable calendar
date"; `none` is the unset date. -/
abbrev Date := Option CalendarDate

/-- Modelled from the spec: `Date::to_string` of `base/time.h`, which is not
among the sources. The spec fixes only the unset case, "start date (or empty
string if unset)"; the text of a set date is left to `render`. -/
def Date.to_string (render : CalendarDate → String) : Date → String
  | none => ""
  | some d => render d

/-- The getters of `anime::Item` (library/anime_item.h) that export.cpp reads,
one field per getter. -/
structure Item where
  GetId : Int
  GetTitle : String
  GetType : Int
  GetEpisodeCount : Int
  GetMyLastWatchedEpisode : Int
  GetMyDateStart : Date
  GetMyDateEnd : Date
  GetMyScore : Int
  GetMyStatus : Int
  GetMyNotes : String
  GetMyRewatchedTimes : Int
  GetMyTags : String
  GetMyRewatching : Bool
  GetMyRewatchingEp : Int
  IsInList : Bool
deriving DecidableEq, Repr

/-- The type of `AnimeDatabase.items` as the loops see it: the `(id, item)`
pairs in iteration order. -/
abbrev Items := List (Int × Item)

/-- Enumerators of `sync/myanimelist_types.h` named in export.cpp; their
values are not among the sources and stay parameters. -/
structure MalTypes where
  kUnknownType : Int
  kTv : Int
  kOva : Int
  kMovie : Int
  kSpecial : Int
  kOna : Int
  kMusic : Int
  kWatching : Int
  kCompleted : Int
  kOnHold : Int
  kDropped : Int
  kPlanToWatch : Int
deriving DecidableEq, Repr

/-- Enumerators of `anime::MyStatus` (library/anime.h) named in export.cpp;
their values are not among the sources and stay parameters. -/
structure AnimeTypes where
  kWatching : Int
  kCompleted : Int
  kOnHold : Int
  kDropped : Int
  kPlanToWatch : Int
deriving DecidableEq, Repr

/-! ## XML tree (pugixml as used through base/xml.h) -/

/-- The node kinds of `pugi::xml_node_type` that the exporter creates. -/
inductive xml_node_type where
  | node_document
  | node_element
  | node_pcdata
  | node_cdata
  | node_comment
  | node_declaration
deriving DecidableEq, Repr

/-- A pugixml node: kind, name, value, attributes and children in document
order. -/
structure XmlNode where
  type : xml_node_type
  name : String
  value : String
  attributes : List (String × String)
  children : List XmlNode
deriving Repr

/-- An `XmlDocument` is the document node. -/
abbrev XmlDocument := XmlNode

/-- The empty document of `XmlDocument document;`. -/
def XmlNode.document : XmlDocument :=
  { type := .node_document, name := "", value := "", attributes := [], children := [] }

/-- A fresh childless element, as created by `append_child(name)`. -/
def XmlNode.element (name : String) : XmlNode :=
  { type := .node_element, name := name, value := "", attributes := [], children := [] }

/-- A fresh node of kind `t` with `set_value(value)` applied. -/
def XmlNode.valued (t : xml_node_type) (value : String) : XmlNode :=
  { type := t, name := "", value := value, attributes := [], children := [] }

/-- The effect of `node.append_child(...)` once the child is complete: the
child becomes the last child. -/
def XmlNode.append_child (node child : XmlNode) : XmlNode :=
  { node with children := node.children ++ [child] }

/-- The effect of `node.prepend_child(...)`: the child becomes the first
child. -/
def XmlNode.prepend_child (node child : XmlNode) : XmlNode :=
  { node with children := child :: node.children }

/-- The effect of `node.append_attribute(name) = value`. -/
def XmlNode.append_attribute (node : XmlNode) (name value : String) : XmlNode :=
  { node with attributes := node.attributes ++ [(name, value)] }

/-- The helper `ToWstr(int)`: the decimal text of an integer. -/
def ToWstr (value : Int) : String := toString value

/-- An element `name` holding one text node of kind `node_type` with value
`value`: what `append_child(name).append_child(node_type).set_value(value)`
builds. -/
def text_element (name value : String) (node_type : xml_node_type) : XmlNode :=
  (XmlNode.element name).append_child (XmlNode.valued node_type value)

/-- Modelled from the spec: `XmlWriteStr` of `base/xml.h`, not among the
sources: it appends to `node` one child element `name` that holds a single
text node of kind `node_type` (plain text, or the "embedded literal text
block" `node_cdata`) whose value is `value` as given. -/
def XmlWriteStr (node : XmlNode) (name value : String) (node_type : xml_node_type) : XmlNode :=
  node.append_child (text_element name value node_type)

/-- Modelled from the spec: `XmlWriteInt` of `base/xml.h`, not among the
sources: it appends to `node` one child element `name` whose text is the
decimal form of `value`. -/
def XmlWriteInt (node : XmlNode) (name : String) (value : Int) : XmlNode :=
  XmlWriteStr node name (ToWstr value) .node_pcdata

/-- The conversion C++ applies when a `bool` is passed for an `int`. -/
def boolToInt (b : Bool) : Int := if b then 1 else 0

/-! ### Reading a tree back -/

/-- The child elements of `node` named `name`, in document order. -/
def XmlNode.childrenNamed (node : XmlNode) (name : String) : List XmlNode :=
  node.children.filter (fun c => c.type = .node_element ∧ c.name = name)

/-- The names of the children of `node`, in document order. -/
def XmlNode.childNames (node : XmlNode) : List String :=
  node.children.map XmlNode.name

/-- The text of an element: the value of its first text child (pcdata or
cdata), as `pugi::xml_node::child_value()` reads it. -/
def XmlNode.text (node : XmlNode) : Option String :=
  (node.children.find? (fun c => c.type = .node_pcdata ∨ c.type = .node_cdata)).map XmlNode.value

/-- The text of the first child element named `name`, when there is one with
a text child. -/
def XmlNode.childText (node : XmlNode) (name : String) : Option String :=
  ((node.childrenNamed name).head?).bind XmlNode.text

/-! ## Collaborators -/

/-- Everything export.cpp calls or reads that is defined elsewhere. -/
structure Env where
  /-- Enumerators of sync/myanimelist_types.h. -/
  mal : MalTypes
  /-- Enumerators of library/anime.h. -/
  anime : AnimeTypes
  /-- The function `sync::myanimelist::TranslateSeriesTypeTo`. -/
  TranslateSeriesTypeTo : Int → Int
  /-- The function `sync::myanimelist::TranslateMyStatusTo`. -/
  TranslateMyStatusTo : Int → Int
  /-- The function `sync::myanimelist::TranslateMyRatingTo`. -/
  TranslateMyRatingTo : Int → Int
  /-- The query `History.queue.IsQueued`. -/
  IsQueued : Int → Bool
  /-- The value of `taiga::GetCurrentUsername()`. -/
  GetCurrentUsername : String
  /-- The value of `StrToWstr(taiga::version().to_string())`. -/
  version : String
  /-- The value of `GetDate()`, the current date. -/
  GetDate : Date
  /-- The value of `GetTime()`, the current time as text. -/
  GetTime : String
  /-- The text `Date::to_string` gives a date that is set. -/
  renderDate : CalendarDate → String
  /-- The function `anime::GetPreferredTitle`. -/
  GetPreferredTitle : Item → String
  /-- Whether an episode count is a known number, for `ui::TranslateNumber`. -/
  isKnownNumber : Int → Bool
  /-- The function `ui::TranslateMyStatus(status, full_name)`. -/
  TranslateMyStatus : Int → Bool → String
  /-- The function `CompareStrings(a, b, case_insensitive)`, negative when `a` sorts first. -/
  CompareStrings : String → String → Bool → Int
  /-- The function `WstrToStr`, the narrowing of the text before it is written. -/
  WstrToStr : String → String
  /-- The sink `SaveToFile(data, path, append)`: whether the write succeeded. -/
  SaveToFile : String → String → Bool → Bool
  /-- The sink `XmlSaveDocumentToFile(document, path)`: whether the write succeeded. -/
  XmlSaveDocumentToFile : XmlDocument → String → Bool

/-! ## ExportAsMalXml -/

/-- The lambda `count_total_anime` (export.cpp:41-49). -/
def count_total_anime (items : Items) : Int :=
  items.foldl (fun count p => if p.2.IsInList then count + 1 else count) 0

/-- Modelled from the spec: `AnimeDatabase.GetItemCount(status)` of
library/anime_db, not among the sources: LibraryView's aggregate query
`CountByStatus(status)`, the number of in-list entries whose status matches,
computed by one scan of the entries. -/
def GetItemCount (items : Items) (status : Int) : Int :=
  items.foldl
    (fun count p => if p.2.IsInList ∧ p.2.GetMyStatus = status then count + 1 else count) 0

/-- The lambda `tr_series_type` (export.cpp:51-62); `default:` shares the
first return. -/
def tr_series_type (env : Env) (type : Int) : String :=
  let t := env.TranslateSeriesTypeTo type
  if t = env.mal.kUnknownType then "Unknown"
  else if t = env.mal.kTv then "TV"
  else if t = env.mal.kOva then "OVA"
  else if t = env.mal.kMovie then "Movie"
  else if t = env.mal.kSpecial then "Special"
  else if t = env.mal.kOna then "ONA"
  else if t = env.mal.kMusic then "Music"
  else "Unknown"

/-- The lambda `tr_my_status` (export.cpp:64-73); `default:` shares the first
return. -/
def tr_my_status (env : Env) (status : Int) : String :=
  let s := env.TranslateMyStatusTo status
  if s = env.mal.kWatching then "Watching"
  else if s = env.mal.kCompleted then "Completed"
  else if s = env.mal.kOnHold then "On-Hold"
  else if s = env.mal.kDropped then "Dropped"
  else if s = env.mal.kPlanToWatch then "Plan to Watch"
  else "Watching"

/-- The `anime` record of one item: the body of the `if` at export.cpp:102-125,
one line per `XmlWrite...` call, in the order of the calls. -/
def anime_node (env : Env) (item : Item) : XmlNode :=
  let node := XmlNode.element "anime"
  let node := XmlWriteInt node "series_animedb_id" item.GetId
  let node := XmlWriteStr node "series_title" item.GetTitle .node_cdata
  let node := XmlWriteStr node "series_type" (tr_series_type env item.GetType) .node_pcdata
  let node := XmlWriteInt node "series_episodes" item.GetEpisodeCount
  let node := XmlWriteInt node "my_id" 0
  let node := XmlWriteInt node "my_watched_episodes" item.GetMyLastWatchedEpisode
  let node := XmlWriteStr node "my_start_date"
    (Date.to_string env.renderDate item.GetMyDateStart) .node_pcdata
  let node := XmlWriteStr node "my_finish_date"
    (Date.to_string env.renderDate item.GetMyDateEnd) .node_pcdata
  let node := XmlWriteStr node "my_fansub_group" "" .node_cdata
  let node := XmlWriteStr node "my_rated" "" .node_pcdata
  let node := XmlWriteInt node "my_score" (env.TranslateMyRatingTo item.GetMyScore)
  let node := XmlWriteStr node "my_dvd" "" .node_pcdata
  let node := XmlWriteStr node "my_storage" "" .node_pcdata
  let node := XmlWriteStr node "my_status" (tr_my_status env item.GetMyStatus) .node_pcdata
  let node := XmlWriteStr node "my_comments" item.GetMyNotes .node_cdata
  let node := XmlWriteInt node "my_times_watched" item.GetMyRewatchedTimes
  let node := XmlWriteStr node "my_rewatch_value" "" .node_pcdata
  let node := XmlWriteInt node "my_downloaded_eps" 0
  let node := XmlWriteStr node "my_tags" item.GetMyTags .node_cdata
  let node := XmlWriteInt node "my_rewatching" (boolToInt item.GetMyRewatching)
  let node := XmlWriteInt node "my_rewatching_ep" item.GetMyRewatchingEp
  let node := XmlWriteInt node "update_on_import" (boolToInt (env.IsQueued item.GetId))
  node

/-- The `myinfo` block (export.cpp:89-98). -/
def myinfo_node (env : Env) (items : Items) : XmlNode :=
  let node_myinfo := XmlNode.element "myinfo"
  let node_myinfo := XmlWriteInt node_myinfo "user_id" 0
  let node_myinfo := XmlWriteStr node_myinfo "user_name" env.GetCurrentUsername .node_pcdata
  let node_myinfo := XmlWriteInt node_myinfo "user_export_type" 1
  let node_myinfo := XmlWriteInt node_myinfo "user_total_anime" (count_total_anime items)
  let node_myinfo := XmlWriteInt node_myinfo "user_total_watching"
    (GetItemCount items env.anime.kWatching)
  let node_myinfo := XmlWriteInt node_myinfo "user_total_completed"
    (GetItemCount items env.anime.kCompleted)
  let node_myinfo := XmlWriteInt node_myinfo "user_total_onhold"
    (GetItemCount items env.anime.kOnHold)
  let node_myinfo := XmlWriteInt node_myinfo "user_total_dropped"
    (GetItemCount items env.anime.kDropped)
  let node_myinfo := XmlWriteInt node_myinfo "user_total_plantowatch"
    (GetItemCount items env.anime.kPlanToWatch)
  node_myinfo

/-- The root element `myanimelist` after the loop of export.cpp:100-127: the
`myinfo` block, then one `anime` child appended per in-list item visited. -/
def myanimelist_node (env : Env) (items : Items) : XmlNode :=
  let node_myanimelist := (XmlNode.element "myanimelist").append_child (myinfo_node env items)
  items.foldl
    (fun root p => if p.2.IsInList then root.append_child (anime_node env p.2) else root)
    node_myanimelist

/-- The generation comment (export.cpp:81-85). -/
def comment_node (env : Env) : XmlNode :=
  XmlNode.valued .node_comment
    (" Generated by Taiga v" ++ env.version ++ " on "
      ++ Date.to_string env.renderDate env.GetDate ++ " " ++ env.GetTime ++ " ")

/-- The declaration node (export.cpp:77-79). -/
def declaration_node : XmlNode :=
  ((XmlNode.valued .node_declaration "").append_attribute "version" "1.0").append_attribute
    "encoding" "UTF-8"

/-- The document `ExportAsMalXml` assembles (export.cpp:75-127). -/
def MalXmlDocument (env : Env) (items : Items) : XmlDocument :=
  let document := XmlNode.document
  let document := document.prepend_child declaration_node
  let document := document.append_child (comment_node env)
  document.append_child (myanimelist_node env items)

/-- The function `ExportAsMalXml` (export.cpp:40-130): the result of saving the
assembled document to `path`. -/
def ExportAsMalXml (env : Env) (items : Items) (path : String) : Bool :=
  env.XmlSaveDocumentToFile (MalXmlDocument env items) path

/-- The root element of a document: its first child element named
`myanimelist`. -/
def XmlNode.root (document : XmlDocument) : XmlNode :=
  ((document.childrenNamed "myanimelist").head?).getD XmlNode.document

/-- The `anime` records of a document, in document order. -/
def animeRecords (document : XmlDocument) : List XmlNode :=
  (XmlNode.root document).childrenNamed "anime"

/-- The `myinfo` blocks of a document. -/
def myinfoBlocks (document : XmlDocument) : List XmlNode :=
  (XmlNode.root document).childrenNamed "myinfo"

/-! ## ExportAsMarkdown -/

/-- Modelled from the spec: `ui::TranslateNumber(value, default_char)` of
ui/translate, not among the sources: the "episode count or '?'" of a line,
the decimal number when the count is known and `default_char` when it is
unknown. Which counts are known is `env.isKnownNumber`. -/
def TranslateNumber (env : Env) (value : Int) (default_char : String) : String :=
  if env.isKnownNumber value then ToWstr value else default_char

/-- The line pushed for one item (export.cpp:137-140): the format string
"{} ({}/{})" filled with the preferred title, the last watched episode and the
translated episode count. -/
def markdown_line (env : Env) (item : Item) : String :=
  env.GetPreferredTitle item ++ " (" ++ ToWstr item.GetMyLastWatchedEpisode ++ "/"
    ++ TranslateNumber env item.GetEpisodeCount "?" ++ ")"

/-- The type of `status_lists`, a `std::map<int, std::vector<std::wstring>>`:
its `(status, list)` pairs in the order the map iterates them, ascending by
key. -/
abbrev StatusLists := List (Int × List String)

/-- The statement `status_lists[status].push_back(line)`: `operator[]` finds the
key or inserts it at its place with an empty vector, and the line goes to the
end of that vector. -/
def status_lists_push_back : StatusLists → Int → String → StatusLists
  | [], status, line => [(status, [line])]
  | (k, list) :: rest, status, line =>
    if status < k then (status, [line]) :: (k, list) :: rest
    else if status = k then (k, list ++ [line]) :: rest
    else (k, list) :: status_lists_push_back rest status line

/-- The first loop of `ExportAsMarkdown` (export.cpp:135-142). -/
def collect_status_lists (env : Env) (items : Items) : StatusLists :=
  items.foldl
    (fun status_lists p =>
      if p.2.IsInList then
        status_lists_push_back status_lists p.2.GetMyStatus (markdown_line env p.2)
      else status_lists)
    []

/-- One insertion of the sort below: `a` goes before the first element that
does not precede it. -/
def std_sort_insert {α : Type} (comp : α → α → Bool) (a : α) : List α → List α
  | [] => [a]
  | b :: l => if comp b a then b :: std_sort_insert comp a l else a :: b :: l

/-- The call `std::sort(first, last, comp)`. The standard fixes the result only
up to the order of equivalent elements; the embedding takes insertion sort as
the algorithm. -/
def std_sort {α : Type} (comp : α → α → Bool) : List α → List α
  | [] => []
  | a :: l => std_sort_insert comp a (std_sort comp l)

/-- The comparison lambda of export.cpp:146-148. -/
def line_less (env : Env) (a b : String) : Bool :=
  decide (env.CompareStrings a b true < 0)

/-- The second loop of `ExportAsMarkdown` (export.cpp:144-149). -/
def sort_status_lists (env : Env) (status_lists : StatusLists) : StatusLists :=
  status_lists.map (fun p => (p.1, std_sort (line_less env) p.2))

/-- The value of `status_lists` when the third loop starts. -/
def sorted_status_lists (env : Env) (items : Items) : StatusLists :=
  sort_status_lists env (collect_status_lists env items)

/-- One iteration of the third loop (export.cpp:153-158) from the text so
far. -/
def append_section (env : Env) (text : String) (status : Int) (list : List String) : String :=
  let text := if !text.isEmpty then text ++ "\r\n" else text
  let text := text ++ ("# " ++ env.TranslateMyStatus status true ++ "\r\n\r\n")
  list.foldl (fun text line => text ++ ("- " ++ line ++ "\r\n")) text

/-- The third loop of `ExportAsMarkdown` (export.cpp:151-159). -/
def render_status_lists (env : Env) (status_lists : StatusLists) : String :=
  status_lists.foldl (fun text p => append_section env text p.1 p.2) ""

/-- The text `ExportAsMarkdown` assembles (export.cpp:133-159). -/
def MarkdownText (env : Env) (items : Items) : String :=
  render_status_lists env (sorted_status_lists env items)

/-- The function `ExportAsMarkdown` (export.cpp:132-162): the result of the
non-append write of the narrowed text to `path`. -/
def ExportAsMarkdown (env : Env) (items : Items) (path : String) : Bool :=
  env.SaveToFile (env.WstrToStr (MarkdownText env items)) path false

/-! ### The Markdown layout as the specification words it -/

/-- One section as the specification describes it: the heading with the long
display name, a blank line, then one list item per line, each ended by
carriage return and newline. -/
def spec_section (env : Env) (status : Int) (lines : List String) : String :=
  "# " ++ env.TranslateMyStatus status true ++ "\r\n\r\n"
    ++ String.join (lines.map (fun line => "- " ++ line ++ "\r\n"))

/-- The document as the specification describes it: the sections of the
buckets in order, one extra line break between consecutive sections. -/
def spec_markdown (env : Env) (status_lists : StatusLists) : String :=
  String.intercalate "\r\n" (status_lists.map (fun p => spec_section env p.1 p.2))

/-! ### A concrete library, used to evaluate the exporters -/

/-- A case-insensitive sort key: the code points of the lower-cased text. -/
def foldKey (s : String) : List Nat := s.data.map (fun c => c.toLower.toNat)

/-- A case-insensitive three-way comparison by `foldKey`. -/
def sampleCompare (a b : String) (case_insensitive : Bool) : Int :=
  let ka := if case_insensitive then foldKey a else a.data.map Char.toNat
  let kb := if case_insensitive then foldKey b else b.data.map Char.toNat
  if ka < kb then -1 else if kb < ka then 1 else 0

/-- Display names of the statuses for the sample collaborators. -/
def sampleStatusName (status : Int) (full_name : Bool) : String :=
  if status = 1 then "Currently watching"
  else if status = 2 then "Completed"
  else if status = 3 then "On hold"
  else if status = 4 then "Dropped"
  else if status = 5 then (if full_name then "Plan to watch" else "PTW")
  else "Not in list"

/-- Sample collaborators: identity translators, an empty change queue, the
enumerator values of the two headers, counts known when positive. -/
def sampleEnv : Env :=
  { mal := ⟨0, 1, 2, 3, 4, 5, 6, 1, 2, 3, 4, 6⟩
    anime := ⟨1, 2, 3, 4, 5⟩
    TranslateSeriesTypeTo := id
    TranslateMyStatusTo := id
    TranslateMyRatingTo := id
    IsQueued := fun _ => false
    GetCurrentUsername := "user"
    version := "1.3"
    GetDate := none
    GetTime := "12:00:00"
    renderDate := fun d => ToWstr d.year ++ "-" ++ ToWstr d.month ++ "-" ++ ToWstr d.day
    GetPreferredTitle := Item.GetTitle
    isKnownNumber := fun n => decide (0 < n)
    TranslateMyStatus := sampleStatusName
    CompareStrings := sampleCompare
    WstrToStr := id
    SaveToFile := fun _ _ _ => true
    XmlSaveDocumentToFile := fun _ _ => true }

/-- A sample entry with the given id, title, status, episode count and in-list
flag; everything else is unset or zero. -/
def sampleItem (id : Int) (title : String) (status episodes : Int) (in_list : Bool) : Item :=
  { GetId := id, GetTitle := title, GetType := 1, GetEpisodeCount := episodes,
    GetMyLastWatchedEpisode := 3, GetMyDateStart := none, GetMyDateEnd := none,
    GetMyScore := 0, GetMyStatus := status, GetMyNotes := "", GetMyRewatchedTimes := 0,
    GetMyTags := "", GetMyRewatching := false, GetMyRewatchingEp := 0, IsInList := in_list }

/-- A sample library: three watched titles out of alphabetical order, one entry
not in the list, one completed title of unknown length. -/
def sampleItems : Items :=
  [(1, sampleItem 1 "zeta" 1 12 true),
   (2, sampleItem 2 "Alpha" 1 24 true),
   (3, sampleItem 3 "hidden" 1 12 false),
   (4, sampleItem 4 "beta" 1 13 true),
   (5, sampleItem 5 "Omega" 2 0 true)]

/-! ### The field order of a record -/

/-- The field order of an `anime` record as the specification words it: the
four placeholders together, then the score immediately before the status. -/
def spec_field_order : List String :=
  ["series_animedb_id", "series_title", "series_type", "series_episodes", "my_id",
   "my_watched_episodes", "my_start_date", "my_finish_date", "my_fansub_group", "my_rated",
   "my_dvd", "my_storage", "my_score", "my_status", "my_comments", "my_times_watched",
   "my_rewatch_value", "my_downloaded_eps", "my_tags", "my_rewatching", "my_rewatching_ep",
   "update_on_import"]

/-- The field order of an `anime` record as export.cpp:103-125 writes it. -/
def source_field_order : List String :=
  ["series_animedb_id", "series_title", "series_type", "series_episodes", "my_id",
   "my_watched_episodes", "my_start_date", "my_finish_date", "my_fansub_group", "my_rated",
   "my_score", "my_dvd", "my_storage", "my_status", "my_comments", "my_times_watched",
   "my_rewatch_value", "my_downloaded_eps", "my_tags", "my_rewatching", "my_rewatching_ep",
   "update_on_import"]

/-! ## Auxiliary definitions for the statements -/

/-- The in-list test of the loops, as a predicate on the pairs of `items`. -/
def inList (p : Int × Item) : Bool := p.2.IsInList

/-- The entries a per-status count is about: in the list, with that status. -/
def inListWithStatus (status : Int) (p : Int × Item) : Bool :=
  p.2.IsInList && decide (p.2.GetMyStatus = status)

/-- The keys of a status map, in iteration order. -/
def statusKeys (m : StatusLists) : List Int := m.map Prod.fst

/-- The vector stored under `status`, empty when the key is absent. -/
def bucket : StatusLists → Int → List String
  | [], _ => []
  | (k, list) :: rest, status => if status = k then list else bucket rest status

/-- All lines of a status map, bucket after bucket. -/
def allLines (m : StatusLists) : List String := m.flatMap Prod.snd

/-- The first loop of `ExportAsMarkdown` started from any map. -/
def collect_from (env : Env) (m : StatusLists) (items : Items) : StatusLists :=
  items.foldl
    (fun status_lists p =>
      if p.2.IsInList then
        status_lists_push_back status_lists p.2.GetMyStatus (markdown_line env p.2)
      else status_lists)
    m

/-! ## The exporters with their sink calls recorded -/

/-- One call of a file sink, with its arguments. -/
inductive SinkCall where
  | XmlSaveDocumentToFile (document : XmlDocument) (path : String)
  | SaveToFile (data : String) (path : String) (append : Bool)

/-- The function `ExportAsMalXml` (export.cpp:40-130) as a step on the log of
sink calls: the returned flag is the one of the sink, and the call at
export.cpp:129 is added to the calls made before. -/
def ExportAsMalXml_traced (env : Env) (items : Items) (path : String)
    (log : List SinkCall) : Bool × List SinkCall :=
  let document := MalXmlDocument env items
  (env.XmlSaveDocumentToFile document path,
    log ++ [SinkCall.XmlSaveDocumentToFile document path])

/-- The function `ExportAsMarkdown` (export.cpp:132-162) as a step on the log of
sink calls: the returned flag is the one of the sink, and the call at
export.cpp:161 is added to the calls made before. -/
def ExportAsMarkdown_traced (env : Env) (items : Items) (path : String)
    (log : List SinkCall) : Bool × List SinkCall :=
  let text := MarkdownText env items
  (env.SaveToFile (env.WstrToStr text) path false,
    log ++ [SinkCall.SaveToFile (env.WstrToStr text) path false])

/-- Two lines compare equal: neither sorts before the other under
`CompareStrings(a, b, true)`. -/
def compareEqual (env : Env) (a b : String) : Prop :=
  ¬ env.CompareStrings a b true < 0 ∧ ¬ env.CompareStrings b a true < 0

/-- The same collaborators at another run: only the tool version and the
current date and time differ. -/
def Env.atRun (env : Env) (version : String) (date : Date) (time : String) : Env :=
  { env with version := version, GetDate := date, GetTime := time }

/-- A library whose entries are all outside the list. -/
def sampleItemsNotInList : Items :=
  [(3, sampleItem 3 "hidden" 1 12 false), (6, sampleItem 6 "other" 2 0 false)]

/-- An entry whose title, notes and tags hold markup characters. -/
def sampleMarkupItem : Item :=
  { sampleItem 9 "a<b & c]]>d" 1 12 true with
    GetMyNotes := "<note> & ]]>", GetMyTags := "x&y, <z>" }

/-- Two libraries with the same entries in two orders; the lines of entries 1
and 2 differ only in letter case. -/
def sampleItemsCaseA : Items :=
  [(1, sampleItem 1 "Alpha" 1 24 true), (2, sampleItem 2 "ALPHA" 1 24 true)]

/-- The library `sampleItemsCaseA` in the other order. -/
def sampleItemsCaseB : Items :=
  [(2, sampleItem 2 "ALPHA" 1 24 true), (1, sampleItem 1 "Alpha" 1 24 true)]

/-! ## Lemmas on the XML tree -/

theorem inList_eq : inList = fun p => p.2.IsInList := rfl

theorem anime_node_type (env : Env) (item : Item) :
    (anime_node env item).type = .node_element := rfl

theorem anime_node_name (env : Env) (item : Item) :
    (anime_node env item).name = "anime" := rfl

theorem myinfo_node_type (env : Env) (items : Items) :
    (myinfo_node env items).type = .node_element := rfl

theorem myinfo_node_name (env : Env) (items : Items) :
    (myinfo_node env items).name = "myinfo" := rfl

/-- The loop of export.cpp:100-127 from any root: kind and name of the root
stay, and the records of the in-list items are appended in order. -/
theorem anime_loop (env : Env) (items : Items) (root : XmlNode) :
    items.foldl
        (fun root p => if p.2.IsInList then root.append_child (anime_node env p.2) else root)
        root
      = { root with
          children := root.children
            ++ (items.filter inList).map (fun p => anime_node env p.2) } := by
  induction items generalizing root with
  | nil => cases root; simp
  | cons p items ih =>
    simp only [List.foldl_cons]
    rw [ih]
    cases h : p.2.IsInList <;> simp [inList, h, XmlNode.append_child]

theorem myanimelist_node_eq (env : Env) (items : Items) :
    myanimelist_node env items
      = { type := .node_element, name := "myanimelist", value := "", attributes := [],
          children := myinfo_node env items
            :: (items.filter inList).map (fun p => anime_node env p.2) } := by
  unfold myanimelist_node
  simp only [anime_loop]
  simp [XmlNode.append_child, XmlNode.element]

theorem root_MalXmlDocument (env : Env) (items : Items) :
    XmlNode.root (MalXmlDocument env items) = myanimelist_node env items := by
  simp [XmlNode.root, MalXmlDocument, XmlNode.childrenNamed, XmlNode.append_child,
    XmlNode.prepend_child, XmlNode.document, declaration_node, comment_node, XmlNode.valued,
    XmlNode.append_attribute, myanimelist_node_eq]

theorem animeRecords_eq (env : Env) (items : Items) :
    animeRecords (MalXmlDocument env items)
      = (items.filter inList).map (fun p => anime_node env p.2) := by
  rw [animeRecords, root_MalXmlDocument, myanimelist_node_eq]
  have h : ∀ a ∈ (items.filter inList).map (fun p => anime_node env p.2),
      decide (a.type = .node_element ∧ a.name = "anime") = true := by
    intro a ha
    obtain ⟨p, -, rfl⟩ := List.mem_map.1 ha
    simp [anime_node_type, anime_node_name]
  simp only [XmlNode.childrenNamed, List.filter_cons, myinfo_node_type, myinfo_node_name]
  rw [List.filter_eq_self.2 h]
  simp

theorem myinfoBlocks_eq (env : Env) (items : Items) :
    myinfoBlocks (MalXmlDocument env items) = [myinfo_node env items] := by
  rw [myinfoBlocks, root_MalXmlDocument, myanimelist_node_eq]
  have h : ∀ a ∈ (items.filter inList).map (fun p => anime_node env p.2),
      ¬ decide (a.type = .node_element ∧ a.name = "myinfo") = true := by
    intro a ha
    obtain ⟨p, -, rfl⟩ := List.mem_map.1 ha
    simp [anime_node_type, anime_node_name]
  simp only [XmlNode.childrenNamed, List.filter_cons, myinfo_node_type, myinfo_node_name]
  rw [List.filter_eq_nil_iff.2 h]
  simp

theorem count_loop (q : Int × Item → Bool) (items : Items) (count : Int) :
    items.foldl (fun count p => if q p then count + 1 else count) count
      = count + ((items.filter q).length : Int) := by
  induction items generalizing count with
  | nil => simp
  | cons p items ih =>
    simp only [List.foldl_cons, List.filter_cons]
    rw [ih]
    cases h : q p <;> simp
    omega

theorem count_total_anime_eq (items : Items) :
    count_total_anime items = ((items.filter inList).length : Int) := by
  have h := count_loop inList items 0
  simpa [count_total_anime, inList] using h

theorem GetItemCount_eq (items : Items) (status : Int) :
    GetItemCount items status = ((items.filter (inListWithStatus status)).length : Int) := by
  have h := count_loop (inListWithStatus status) items 0
  simpa [GetItemCount, inListWithStatus] using h

theorem XmlWriteStr_children (node : XmlNode) (name value : String) (t : xml_node_type) :
    (XmlWriteStr node name value t).children = node.children ++ [text_element name value t] :=
  rfl

theorem XmlWriteInt_children (node : XmlNode) (name : String) (value : Int) :
    (XmlWriteInt node name value).children
      = node.children ++ [text_element name (ToWstr value) .node_pcdata] := rfl

theorem text_element_name (name value : String) (t : xml_node_type) :
    (text_element name value t).name = name := rfl

theorem text_element_type (name value : String) (t : xml_node_type) :
    (text_element name value t).type = .node_element := rfl

theorem text_element_text_pcdata (name value : String) :
    (text_element name value .node_pcdata).text = some value := rfl

theorem text_element_text_cdata (name value : String) :
    (text_element name value .node_cdata).text = some value := rfl

/-- The children of an `anime` record, in document order. -/
theorem anime_node_children (env : Env) (item : Item) :
    (anime_node env item).children
      = [text_element "series_animedb_id" (ToWstr item.GetId) .node_pcdata,
         text_element "series_title" item.GetTitle .node_cdata,
         text_element "series_type" (tr_series_type env item.GetType) .node_pcdata,
         text_element "series_episodes" (ToWstr item.GetEpisodeCount) .node_pcdata,
         text_element "my_id" (ToWstr 0) .node_pcdata,
         text_element "my_watched_episodes" (ToWstr item.GetMyLastWatchedEpisode) .node_pcdata,
         text_element "my_start_date"
           (Date.to_string env.renderDate item.GetMyDateStart) .node_pcdata,
         text_element "my_finish_date"
           (Date.to_string env.renderDate item.GetMyDateEnd) .node_pcdata,
         text_element "my_fansub_group" "" .node_cdata,
         text_element "my_rated" "" .node_pcdata,
         text_element "my_score" (ToWstr (env.TranslateMyRatingTo item.GetMyScore)) .node_pcdata,
         text_element "my_dvd" "" .node_pcdata,
         text_element "my_storage" "" .node_pcdata,
         text_element "my_status" (tr_my_status env item.GetMyStatus) .node_pcdata,
         text_element "my_comments" item.GetMyNotes .node_cdata,
         text_element "my_times_watched" (ToWstr item.GetMyRewatchedTimes) .node_pcdata,
         text_element "my_rewatch_value" "" .node_pcdata,
         text_element "my_downloaded_eps" (ToWstr 0) .node_pcdata,
         text_element "my_tags" item.GetMyTags .node_cdata,
         text_element "my_rewatching" (ToWstr (boolToInt item.GetMyRewatching)) .node_pcdata,
         text_element "my_rewatching_ep" (ToWstr item.GetMyRewatchingEp) .node_pcdata,
         text_element "update_on_import"
           (ToWstr (boolToInt (env.IsQueued item.GetId))) .node_pcdata] := by
  simp only [anime_node, XmlWriteStr_children, XmlWriteInt_children, XmlNode.element,
    List.nil_append, List.cons_append]

/-- The children of the `myinfo` block, in document order. -/
theorem myinfo_node_children (env : Env) (items : Items) :
    (myinfo_node env items).children
      = [text_element "user_id" (ToWstr 0) .node_pcdata,
         text_element "user_name" env.GetCurrentUsername .node_pcdata,
         text_element "user_export_type" (ToWstr 1) .node_pcdata,
         text_element "user_total_anime" (ToWstr (count_total_anime items)) .node_pcdata,
         text_element "user_total_watching"
           (ToWstr (GetItemCount items env.anime.kWatching)) .node_pcdata,
         text_element "user_total_completed"
           (ToWstr (GetItemCount items env.anime.kCompleted)) .node_pcdata,
         text_element "user_total_onhold"
           (ToWstr (GetItemCount items env.anime.kOnHold)) .node_pcdata,
         text_element "user_total_dropped"
           (ToWstr (GetItemCount items env.anime.kDropped)) .node_pcdata,
         text_element "user_total_plantowatch"
           (ToWstr (GetItemCount items env.anime.kPlanToWatch)) .node_pcdata] := by
  simp only [myinfo_node, XmlWriteStr_children, XmlWriteInt_children, XmlNode.element,
    List.nil_append, List.cons_append]

theorem anime_node_childNames (env : Env) (item : Item) :
    (anime_node env item).childNames
      = ["series_animedb_id", "series_title", "series_type", "series_episodes", "my_id",
         "my_watched_episodes", "my_start_date", "my_finish_date", "my_fansub_group",
         "my_rated", "my_score", "my_dvd", "my_storage", "my_status", "my_comments",
         "my_times_watched", "my_rewatch_value", "my_downloaded_eps", "my_tags",
         "my_rewatching", "my_rewatching_ep", "update_on_import"] := by
  rw [XmlNode.childNames, anime_node_children]
  simp only [List.map_cons, List.map_nil, text_element_name]

theorem anime_node_id_text (env : Env) (item : Item) :
    (anime_node env item).childText "series_animedb_id" = some (ToWstr item.GetId) := by
  rw [XmlNode.childText, XmlNode.childrenNamed, anime_node_children]
  simp [text_element_name, text_element_type, text_element_text_pcdata]

theorem anime_node_start_text (env : Env) (item : Item) :
    (anime_node env item).childText "my_start_date"
      = some (Date.to_string env.renderDate item.GetMyDateStart) := by
  rw [XmlNode.childText, XmlNode.childrenNamed, anime_node_children]
  simp [text_element_name, text_element_type, text_element_text_pcdata]

theorem anime_node_finish_text (env : Env) (item : Item) :
    (anime_node env item).childText "my_finish_date"
      = some (Date.to_string env.renderDate item.GetMyDateEnd) := by
  rw [XmlNode.childText, XmlNode.childrenNamed, anime_node_children]
  simp [text_element_name, text_element_type, text_element_text_pcdata]

theorem myinfo_total_text (env : Env) (items : Items) :
    (myinfo_node env items).childText "user_total_anime"
      = some (ToWstr (count_total_anime items)) := by
  rw [XmlNode.childText, XmlNode.childrenNamed, myinfo_node_children]
  simp [text_element_name, text_element_type, text_element_text_pcdata]

/-! ## Lemmas on the status map -/

theorem collect_status_lists_eq (env : Env) (items : Items) :
    collect_status_lists env items = collect_from env [] items := rfl

theorem mem_keys_push_back (m : StatusLists) (s : Int) (l : String) (k : Int) :
    k ∈ statusKeys (status_lists_push_back m s l) ↔ k = s ∨ k ∈ statusKeys m := by
  induction m with
  | nil => simp [status_lists_push_back, statusKeys]
  | cons p rest ih =>
    obtain ⟨k', list⟩ := p
    simp only [status_lists_push_back]
    split_ifs with h1 h2
    · simp [statusKeys]
    · subst h2; simp [statusKeys]
    · simp only [statusKeys, List.map_cons, List.mem_cons] at ih ⊢
      rw [ih]; tauto

theorem keys_sorted_push_back (m : StatusLists) (s : Int) (l : String)
    (h : (statusKeys m).Pairwise (· < ·)) :
    (statusKeys (status_lists_push_back m s l)).Pairwise (· < ·) := by
  induction m with
  | nil => simp [status_lists_push_back, statusKeys]
  | cons p rest ih =>
    obtain ⟨k', list⟩ := p
    simp only [statusKeys, List.map_cons, List.pairwise_cons] at h
    simp only [status_lists_push_back]
    split_ifs with h1 h2
    · simp only [statusKeys, List.map_cons, List.pairwise_cons, List.mem_cons]
      refine ⟨?_, h.1, h.2⟩
      rintro a (rfl | ha)
      · exact h1
      · exact lt_trans h1 (h.1 a ha)
    · subst h2
      simpa [statusKeys] using h
    · have hlt : k' < s := lt_of_le_of_ne (not_lt.1 h1) (Ne.symm h2)
      have ih' := ih h.2
      have hm := mem_keys_push_back rest s l
      simp only [statusKeys] at ih' hm
      simp only [statusKeys, List.map_cons, List.pairwise_cons]
      refine ⟨?_, ih'⟩
      intro a ha
      rcases (hm a).1 ha with rfl | ha'
      · exact hlt
      · exact h.1 a ha'

theorem bucket_of_not_mem (m : StatusLists) (s : Int) (h : s ∉ statusKeys m) :
    bucket m s = [] := by
  induction m with
  | nil => rfl
  | cons p rest ih =>
    obtain ⟨k, list⟩ := p
    simp only [statusKeys, List.map_cons, List.mem_cons, not_or] at h
    simp only [bucket, if_neg h.1]
    exact ih h.2

theorem bucket_push_back (m : StatusLists) (s : Int) (l : String) (k : Int)
    (h : (statusKeys m).Pairwise (· < ·)) :
    bucket (status_lists_push_back m s l) k
      = if k = s then bucket m s ++ [l] else bucket m k := by
  induction m with
  | nil =>
    by_cases hk : k = s <;> simp [status_lists_push_back, bucket, hk]
  | cons p rest ih =>
    obtain ⟨k', list⟩ := p
    simp only [statusKeys, List.map_cons, List.pairwise_cons] at h
    simp only [status_lists_push_back]
    split_ifs with h1 h2 h3 h4 h5
    · subst h2
      have hne : k ≠ k' := ne_of_lt h1
      have hnot : k ∉ statusKeys rest := fun hmem => lt_asymm h1 (h.1 k hmem)
      simp [bucket, hne, bucket_of_not_mem rest k hnot]
    · simp [bucket, h2]
    · subst h3; subst h4
      simp [bucket]
    · subst h3
      simp [bucket, h4]
    · subst h5
      have hne : k ≠ k' := fun e => h3 e
      simp only [bucket, if_neg hne]
      rw [ih h.2]; simp
    · by_cases hk : k = k'
      · simp [bucket, hk]
      · simp only [bucket, if_neg hk]
        rw [ih h.2]; simp [h5]

theorem bucket_of_mem (m : StatusLists) (h : (statusKeys m).Pairwise (· < ·))
    (p : Int × List String) (hp : p ∈ m) : bucket m p.1 = p.2 := by
  induction m with
  | nil => cases hp
  | cons q rest ih =>
    obtain ⟨k, list⟩ := q
    simp only [statusKeys, List.map_cons, List.pairwise_cons] at h
    rcases List.mem_cons.1 hp with rfl | hp'
    · simp [bucket]
    · have hlt : k < p.1 := h.1 p.1 (List.mem_map.2 ⟨p, hp', rfl⟩)
      simp only [bucket, if_neg (ne_of_gt hlt)]
      exact ih h.2 hp'

theorem allLines_push_back (m : StatusLists) (s : Int) (l : String) :
    (allLines (status_lists_push_back m s l)).Perm (allLines m ++ [l]) := by
  induction m with
  | nil => simp [status_lists_push_back, allLines]
  | cons p rest ih =>
    obtain ⟨k, list⟩ := p
    simp only [status_lists_push_back]
    split_ifs with h1 h2
    · simp only [allLines, List.flatMap_cons, List.flatMap_nil, List.append_nil] at *
      exact (@List.perm_append_comm _ [l] (list ++ List.flatMap rest Prod.snd)).trans (by simp)
    · simp only [allLines, List.flatMap_cons, List.append_assoc]
      exact List.Perm.append_left list List.perm_append_comm
    · simp only [allLines, List.flatMap_cons, List.append_assoc] at *
      exact List.Perm.append_left list ih

theorem nonempty_push_back (m : StatusLists) (s : Int) (l : String)
    (h : ∀ p ∈ m, p.2 ≠ []) : ∀ p ∈ status_lists_push_back m s l, p.2 ≠ [] := by
  induction m with
  | nil => simp [status_lists_push_back]
  | cons q rest ih =>
    obtain ⟨k, list⟩ := q
    simp only [status_lists_push_back]
    split_ifs with h1 h2
    · intro p hp
      rcases List.mem_cons.1 hp with rfl | hp'
      · simp
      · exact h p hp'
    · intro p hp
      rcases List.mem_cons.1 hp with rfl | hp'
      · simp
      · exact h p (List.mem_cons_of_mem _ hp')
    · intro p hp
      rcases List.mem_cons.1 hp with rfl | hp'
      · exact h _ (List.mem_cons_self _ _)
      · exact ih (fun p hp => h p (List.mem_cons_of_mem _ hp)) p hp'

theorem collect_from_cons (env : Env) (m : StatusLists) (p : Int × Item) (items : Items) :
    collect_from env m (p :: items)
      = collect_from env
          (if p.2.IsInList then
            status_lists_push_back m p.2.GetMyStatus (markdown_line env p.2)
          else m) items := rfl

theorem keys_sorted_collect_from (env : Env) (m : StatusLists) (items : Items)
    (h : (statusKeys m).Pairwise (· < ·)) :
    (statusKeys (collect_from env m items)).Pairwise (· < ·) := by
  induction items generalizing m with
  | nil => exact h
  | cons p items ih =>
    rw [collect_from_cons]
    apply ih
    split_ifs
    · exact keys_sorted_push_back m _ _ h
    · exact h

theorem mem_keys_collect_from (env : Env) (m : StatusLists) (items : Items) (k : Int) :
    k ∈ statusKeys (collect_from env m items)
      ↔ k ∈ statusKeys m ∨ ∃ p ∈ items, p.2.IsInList = true ∧ p.2.GetMyStatus = k := by
  induction items generalizing m with
  | nil => simp [collect_from]
  | cons p items ih =>
    rw [collect_from_cons, ih]
    by_cases hp : p.2.IsInList = true
    · simp only [hp, if_true, mem_keys_push_back, List.mem_cons, exists_eq_or_imp, true_and]
      constructor
      · rintro ((rfl | h) | h)
        · exact Or.inr (Or.inl rfl)
        · exact Or.inl h
        · exact Or.inr (Or.inr h)
      · rintro (h | h | h)
        · exact Or.inl (Or.inr h)
        · exact Or.inl (Or.inl h.symm)
        · exact Or.inr h
    · simp [hp]

theorem bucket_collect_from (env : Env) (m : StatusLists) (items : Items) (k : Int)
    (h : (statusKeys m).Pairwise (· < ·)) :
    bucket (collect_from env m items) k
      = bucket m k
        ++ (items.filter (inListWithStatus k)).map (fun p => markdown_line env p.2) := by
  induction items generalizing m with
  | nil => simp [collect_from]
  | cons p items ih =>
    rw [collect_from_cons]
    by_cases hp : p.2.IsInList = true
    · simp only [hp, if_true]
      rw [ih _ (keys_sorted_push_back m _ _ h), bucket_push_back m _ _ k h]
      by_cases hk : k = p.2.GetMyStatus
      · subst hk
        simp [List.filter_cons, inListWithStatus, hp]
      · have hk' : ¬ p.2.GetMyStatus = k := fun e => hk e.symm
        simp [List.filter_cons, inListWithStatus, hp, hk, hk']
    · simp only [hp, Bool.false_eq_true, if_false]
      rw [ih _ h]
      simp [List.filter_cons, inListWithStatus, hp]

theorem allLines_collect_from (env : Env) (m : StatusLists) (items : Items) :
    (allLines (collect_from env m items)).Perm
      (allLines m ++ (items.filter inList).map (fun p => markdown_line env p.2)) := by
  induction items generalizing m with
  | nil => simp [collect_from]
  | cons p items ih =>
    rw [collect_from_cons]
    refine (ih _).trans ?_
    by_cases hp : p.2.IsInList = true
    · simp only [hp, if_true, List.filter_cons, inList, List.map_cons]
      refine ((allLines_push_back m _ _).append_right _).trans ?_
      simp
    · simp [hp, List.filter_cons, inList]

theorem nonempty_collect_from (env : Env) (m : StatusLists) (items : Items)
    (h : ∀ p ∈ m, p.2 ≠ []) : ∀ p ∈ collect_from env m items, p.2 ≠ [] := by
  induction items generalizing m with
  | nil => exact h
  | cons p items ih =>
    rw [collect_from_cons]
    apply ih
    split_ifs
    · exact nonempty_push_back m _ _ h
    · exact h

/-! ## Lemmas on the sort -/

theorem std_sort_insert_perm {α : Type} (comp : α → α → Bool) (a : α) (l : List α) :
    (std_sort_insert comp a l).Perm (a :: l) := by
  induction l with
  | nil => simp [std_sort_insert]
  | cons b l ih =>
    simp only [std_sort_insert]
    split_ifs
    · exact (List.Perm.cons b ih).trans (List.Perm.swap a b l)
    · exact List.Perm.refl _

theorem std_sort_perm {α : Type} (comp : α → α → Bool) (l : List α) :
    (std_sort comp l).Perm l := by
  induction l with
  | nil => simp [std_sort]
  | cons a l ih =>
    simp only [std_sort]
    exact (std_sort_insert_perm comp a _).trans (List.Perm.cons a ih)

/-- In a strict weak order, "does not precede" is transitive. -/
theorem not_lt_trans {α : Type} (r : α → α → Prop) [IsStrictWeakOrder α r] {x y z : α}
    (hxy : ¬ r y x) (hyz : ¬ r z y) : ¬ r z x := by
  intro hzx
  have hxy' : ¬ r x y := fun h => hyz (trans_of r hzx h)
  have hyz' : ¬ r y z := fun h => hxy (trans_of r h hzx)
  exact (IsStrictWeakOrder.incomp_trans x y z ⟨hxy', hxy⟩ ⟨hyz', hyz⟩).2 hzx

theorem std_sort_insert_sorted {α : Type} (comp : α → α → Bool)
    [IsStrictWeakOrder α (fun a b => comp a b = true)] (a : α) (l : List α)
    (h : l.Pairwise (fun x y => ¬ comp y x = true)) :
    (std_sort_insert comp a l).Pairwise (fun x y => ¬ comp y x = true) := by
  induction l with
  | nil => simp [std_sort_insert]
  | cons b l ih =>
    rw [List.pairwise_cons] at h
    simp only [std_sort_insert]
    split_ifs with hba
    · rw [List.pairwise_cons]
      refine ⟨?_, ih h.2⟩
      intro y hy
      rcases List.mem_cons.1 ((std_sort_insert_perm comp a l).subset hy) with rfl | hy'
      · exact fun hyb => asymm_of (fun a b => comp a b = true) hba hyb
      · exact h.1 y hy'
    · rw [List.pairwise_cons]
      refine ⟨?_, List.pairwise_cons.2 h⟩
      intro y hy
      rcases List.mem_cons.1 hy with rfl | hy'
      · exact hba
      · exact not_lt_trans (fun a b => comp a b = true) hba (h.1 y hy')

theorem std_sort_sorted {α : Type} (comp : α → α → Bool)
    [IsStrictWeakOrder α (fun a b => comp a b = true)] (l : List α) :
    (std_sort comp l).Pairwise (fun x y => ¬ comp y x = true) := by
  induction l with
  | nil => simp [std_sort]
  | cons a l ih =>
    simp only [std_sort]
    exact std_sort_insert_sorted comp a _ ih

theorem statusKeys_sort (env : Env) (m : StatusLists) :
    statusKeys (sort_status_lists env m) = statusKeys m := by
  simp [statusKeys, sort_status_lists, Function.comp_def]

theorem allLines_sort (env : Env) (m : StatusLists) :
    (allLines (sort_status_lists env m)).Perm (allLines m) := by
  induction m with
  | nil => simp [sort_status_lists, allLines]
  | cons p rest ih =>
    simp only [allLines, sort_status_lists, List.map_cons, List.flatMap_cons] at *
    exact (std_sort_perm _ _).append ih

theorem mem_sort_status_lists (env : Env) (m : StatusLists) (b : Int × List String) :
    b ∈ sort_status_lists env m ↔ ∃ q ∈ m, b = (q.1, std_sort (line_less env) q.2) := by
  simp only [sort_status_lists, List.mem_map]
  constructor
  · rintro ⟨q, hq, rfl⟩; exact ⟨q, hq, rfl⟩
  · rintro ⟨q, hq, rfl⟩; exact ⟨q, hq, rfl⟩

/-! ## Lemmas on the text -/

theorem join_loop (l : List String) (acc : String) :
    l.foldl (fun r s => r ++ s) acc = acc ++ String.join l := by
  induction l generalizing acc with
  | nil => simp [String.join]
  | cons a l ih =>
    simp only [List.foldl_cons, String.join]
    rw [ih, ih ("" ++ a), String.empty_append, String.append_assoc]

theorem lines_loop (list : List String) (text : String) :
    list.foldl (fun text line => text ++ ("- " ++ line ++ "\r\n")) text
      = text ++ String.join (list.map (fun line => "- " ++ line ++ "\r\n")) := by
  rw [← join_loop, List.foldl_map]

theorem ne_empty_of_heading (a b : String) : a ++ ("# " ++ b) ≠ "" := by
  intro h
  have hl := congrArg String.length h
  simp only [String.length_append] at hl
  have h2 : "# ".length = 2 := by decide
  have h0 : "".length = 0 := by decide
  omega

theorem append_section_eq (env : Env) (text : String) (status : Int) (list : List String) :
    append_section env text status list
      = (if text = "" then "" else text ++ "\r\n") ++ spec_section env status list := by
  unfold append_section spec_section
  simp only [lines_loop]
  by_cases h : text = ""
  · subst h
    have he : "".isEmpty = true := by decide
    simp [he, String.append_assoc]
  · have hne : text.isEmpty = false := by
      rw [← Bool.not_eq_true, String.isEmpty_iff]; exact h
    simp [h, hne, String.append_assoc]

theorem spec_section_ne_empty (env : Env) (status : Int) (list : List String) (a : String) :
    a ++ spec_section env status list ≠ "" := by
  unfold spec_section
  rw [String.append_assoc, String.append_assoc]
  exact ne_empty_of_heading _ _

theorem render_go (env : Env) (m : StatusLists) (text : String) (h : text ≠ "") :
    m.foldl (fun text p => append_section env text p.1 p.2) text
      = String.intercalate.go text "\r\n" (m.map (fun p => spec_section env p.1 p.2)) := by
  induction m generalizing text with
  | nil => simp [String.intercalate.go]
  | cons p m ih =>
    simp only [List.foldl_cons, List.map_cons, String.intercalate.go]
    rw [append_section_eq, if_neg h]
    exact ih _ (spec_section_ne_empty env _ _ _)

/-- The third loop writes the layout of the specification. -/
theorem render_status_lists_eq (env : Env) (m : StatusLists) :
    render_status_lists env m = spec_markdown env m := by
  cases m with
  | nil => simp [render_status_lists, spec_markdown, String.intercalate]
  | cons p m =>
    simp only [render_status_lists, spec_markdown, List.foldl_cons, List.map_cons,
      String.intercalate]
    rw [append_section_eq, if_pos rfl, render_go env m _ (spec_section_ne_empty env _ _ _),
      String.empty_append]

theorem append_section_prefix (env : Env) (text : String) (status : Int) (list : List String) :
    ∃ rest, append_section env text status list = text ++ rest := by
  rw [append_section_eq]
  by_cases h : text = ""
  · exact ⟨spec_section env status list, by simp [h]⟩
  · exact ⟨"\r\n" ++ spec_section env status list, by simp [h, String.append_assoc]⟩

theorem render_prefix (env : Env) (m : StatusLists) (text : String) :
    ∃ rest, m.foldl (fun text p => append_section env text p.1 p.2) text = text ++ rest := by
  induction m generalizing text with
  | nil => exact ⟨"", by simp⟩
  | cons p m ih =>
    obtain ⟨r1, h1⟩ := append_section_prefix env text p.1 p.2
    obtain ⟨r2, h2⟩ := ih (append_section env text p.1 p.2)
    exact ⟨r1 ++ r2, by rw [List.foldl_cons, h2, h1, String.append_assoc]⟩

/-- A non-empty text of the third loop starts with the heading mark. -/
theorem render_starts (env : Env) (m : StatusLists) :
    render_status_lists env m = "" ∨ ∃ rest, render_status_lists env m = "# " ++ rest := by
  cases m with
  | nil => exact Or.inl rfl
  | cons p m =>
    right
    obtain ⟨r, hr⟩ := render_prefix env m (append_section env "" p.1 p.2)
    refine ⟨env.TranslateMyStatus p.1 true ++ "\r\n\r\n"
      ++ String.join (p.2.map (fun line => "- " ++ line ++ "\r\n")) ++ r, ?_⟩
    simp only [render_status_lists, List.foldl_cons]
    rw [hr, append_section_eq, if_pos rfl, String.empty_append, spec_section]
    simp only [String.append_assoc]

theorem lines_loop_ends (list : List String) (text : String)
    (h : ∃ body, text = body ++ "\r\n") :
    ∃ body, list.foldl (fun text line => text ++ ("- " ++ line ++ "\r\n")) text
      = body ++ "\r\n" := by
  induction list generalizing text with
  | nil => exact h
  | cons line list ih =>
    exact ih _ ⟨text ++ ("- " ++ line), by simp only [String.append_assoc]⟩

theorem append_section_ends (env : Env) (text : String) (status : Int) (list : List String) :
    ∃ body, append_section env text status list = body ++ "\r\n" := by
  unfold append_section
  apply lines_loop_ends
  refine ⟨(if (!text.isEmpty) = true then text ++ "\r\n" else text)
    ++ ("# " ++ env.TranslateMyStatus status true ++ "\r\n"), ?_⟩
  have h : "\r\n\r\n" = "\r\n" ++ "\r\n" := by decide
  simp only [h, String.append_assoc]

/-- A non-empty text of the third loop ends with a line break. -/
theorem render_ends (env : Env) (m : StatusLists) :
    render_status_lists env m = "" ∨ ∃ body, render_status_lists env m = body ++ "\r\n" := by
  rcases List.eq_nil_or_concat m with rfl | ⟨m', p, rfl⟩
  · exact Or.inl rfl
  · right
    simp only [render_status_lists, List.concat_eq_append, List.foldl_append, List.foldl_cons,
      List.foldl_nil]
    exact append_section_ends env _ _ _

theorem bucket_sort (env : Env) (m : StatusLists) (k : Int) :
    bucket (sort_status_lists env m) k = std_sort (line_less env) (bucket m k) := by
  induction m with
  | nil => simp [sort_status_lists, bucket, std_sort]
  | cons p rest ih =>
    obtain ⟨k', list⟩ := p
    simp only [sort_status_lists, List.map_cons, bucket] at ih ⊢
    split_ifs
    · rfl
    · exact ih

theorem keys_sorted_sorted_status_lists (env : Env) (items : Items) :
    (statusKeys (sorted_status_lists env items)).Pairwise (· < ·) := by
  rw [sorted_status_lists, statusKeys_sort, collect_status_lists_eq]
  exact keys_sorted_collect_from env [] items (by simp [statusKeys])

theorem mem_keys_sorted_status_lists (env : Env) (items : Items) (k : Int) :
    k ∈ statusKeys (sorted_status_lists env items)
      ↔ ∃ p ∈ items, p.2.IsInList = true ∧ p.2.GetMyStatus = k := by
  rw [sorted_status_lists, statusKeys_sort, collect_status_lists_eq, mem_keys_collect_from]
  simp [statusKeys]

theorem bucket_sorted_status_lists (env : Env) (items : Items) (k : Int) :
    bucket (sorted_status_lists env items) k
      = std_sort (line_less env)
          ((items.filter (inListWithStatus k)).map (fun p => markdown_line env p.2)) := by
  rw [sorted_status_lists, bucket_sort, collect_status_lists_eq,
    bucket_collect_from env [] items k (by simp [statusKeys])]
  simp [bucket]

theorem line_less_rel (env : Env) :
    (fun a b => line_less env a b = true) = (fun a b => env.CompareStrings a b true < 0) := by
  funext a b
  simp [line_less]

theorem sampleCompare_lt (a b : String) :
    sampleCompare a b true < 0 ↔ foldKey a < foldKey b := by
  unfold sampleCompare
  simp only [if_true]
  split_ifs with h1 h2
  · simp [h1]
  · simp [h1]
  · simp [h1]

theorem sampleCompare_swo :
    IsStrictWeakOrder String (fun a b => sampleEnv.CompareStrings a b true < 0) := by
  have e : (fun a b => sampleEnv.CompareStrings a b true < 0)
      = (fun a b => foldKey a < foldKey b) := by
    funext a b
    exact propext (sampleCompare_lt a b)
  rw [e]
  exact
    { irrefl := fun a => lt_irrefl _
      trans := fun a b c => lt_trans
      incomp_trans := by
        rintro a b c ⟨h1, h2⟩ ⟨h3, h4⟩
        have hab : foldKey a = foldKey b := le_antisymm (not_lt.1 h2) (not_lt.1 h1)
        have hbc : foldKey b = foldKey c := le_antisymm (not_lt.1 h4) (not_lt.1 h3)
        rw [hab, hbc]
        exact ⟨lt_irrefl _, lt_irrefl _⟩ }

/-! ## Lemmas on the counts -/

theorem length_filter_or {α : Type} (l : List α) (p q : α → Bool)
    (h : ∀ x, ¬ (p x = true ∧ q x = true)) :
    (l.filter (fun x => p x || q x)).length = (l.filter p).length + (l.filter q).length := by
  induction l with
  | nil => rfl
  | cons a l ih =>
    have ha := h a
    simp only [List.filter_cons]
    cases hp : p a <;> cases hq : q a <;> simp_all <;> omega

/-- Counts by pairwise distinct statuses add up to the count of the entries
whose status is one of them. -/
theorem sum_status_counts (l : Items) (ss : List Int) (h : ss.Nodup) :
    (ss.map (fun s => ((l.filter (fun p => decide (p.2.GetMyStatus = s))).length : Int))).sum
      = ((l.filter (fun p => decide (p.2.GetMyStatus ∈ ss))).length : Int) := by
  induction ss with
  | nil => simp
  | cons s rest ih =>
    rw [List.nodup_cons] at h
    simp only [List.map_cons, List.sum_cons, ih h.2]
    rw [← Nat.cast_add, ← length_filter_or]
    · congr 3
      funext x
      simp
    · intro x hx
      simp only [decide_eq_true_eq] at hx
      exact h.1 (hx.1 ▸ hx.2)

theorem myinfo_status_texts (env : Env) (items : Items) :
    [(myinfo_node env items).childText "user_total_watching",
     (myinfo_node env items).childText "user_total_completed",
     (myinfo_node env items).childText "user_total_onhold",
     (myinfo_node env items).childText "user_total_dropped",
     (myinfo_node env items).childText "user_total_plantowatch"]
      = [some (ToWstr (GetItemCount items env.anime.kWatching)),
         some (ToWstr (GetItemCount items env.anime.kCompleted)),
         some (ToWstr (GetItemCount items env.anime.kOnHold)),
         some (ToWstr (GetItemCount items env.anime.kDropped)),
         some (ToWstr (GetItemCount items env.anime.kPlanToWatch))] := by
  simp only [XmlNode.childText, XmlNode.childrenNamed, myinfo_node_children]
  simp [text_element_name, text_element_type, text_element_text_pcdata]

theorem filter_inListWithStatus (items : Items) (status : Int) :
    items.filter (inListWithStatus status)
      = (items.filter (fun p => p.2.IsInList)).filter
          (fun p => decide (p.2.GetMyStatus = status)) := by
  rw [List.filter_filter]
  congr 1
  funext p
  simp [inListWithStatus, Bool.and_comm]

/-! ## Lemmas on the runs, the tables and the orders of the entries -/

theorem collect_from_not_in_list (env : Env) (m : StatusLists) (items : Items)
    (h : ∀ p ∈ items, p.2.IsInList = false) : collect_from env m items = m := by
  induction items generalizing m with
  | nil => rfl
  | cons p items ih =>
    rw [collect_from_cons, h p (List.mem_cons_self _ _)]
    exact ih m (fun q hq => h q (List.mem_cons_of_mem _ hq))

theorem anime_node_atRun (env : Env) (version : String) (date : Date) (time : String)
    (item : Item) : anime_node (env.atRun version date time) item = anime_node env item := rfl

theorem myinfo_node_atRun (env : Env) (version : String) (date : Date) (time : String)
    (items : Items) : myinfo_node (env.atRun version date time) items = myinfo_node env items :=
  rfl

theorem myanimelist_node_atRun (env : Env) (version : String) (date : Date) (time : String)
    (items : Items) :
    myanimelist_node (env.atRun version date time) items = myanimelist_node env items := by
  rw [myanimelist_node_eq, myanimelist_node_eq, myinfo_node_atRun]
  simp only [anime_node_atRun]

theorem MalXmlDocument_children (env : Env) (items : Items) :
    (MalXmlDocument env items).children
      = [declaration_node, comment_node env, myanimelist_node env items] := rfl

theorem myanimelist_node_type (env : Env) (items : Items) :
    (myanimelist_node env items).type = .node_element := by
  rw [myanimelist_node_eq]

theorem myanimelist_node_name (env : Env) (items : Items) :
    (myanimelist_node env items).name = "myanimelist" := by
  rw [myanimelist_node_eq]

theorem markdown_line_atRun (env : Env) (version : String) (date : Date) (time : String)
    (item : Item) :
    markdown_line (env.atRun version date time) item = markdown_line env item := rfl

theorem MarkdownText_atRun (env : Env) (version : String) (date : Date) (time : String)
    (items : Items) :
    MarkdownText (env.atRun version date time) items = MarkdownText env items := rfl

theorem myinfo_node_childNames (env : Env) (items : Items) :
    (myinfo_node env items).childNames
      = ["user_id", "user_name", "user_export_type", "user_total_anime", "user_total_watching",
         "user_total_completed", "user_total_onhold", "user_total_dropped",
         "user_total_plantowatch"] := by
  rw [XmlNode.childNames, myinfo_node_children]
  simp only [List.map_cons, List.map_nil, text_element_name]

theorem myinfo_node_texts (env : Env) (items : Items) :
    ["user_name", "user_export_type", "user_total_anime", "user_total_watching",
       "user_total_completed", "user_total_onhold", "user_total_dropped",
       "user_total_plantowatch"].map (fun name => (myinfo_node env items).childText name)
      = [some env.GetCurrentUsername, some (ToWstr 1), some (ToWstr (count_total_anime items)),
         some (ToWstr (GetItemCount items env.anime.kWatching)),
         some (ToWstr (GetItemCount items env.anime.kCompleted)),
         some (ToWstr (GetItemCount items env.anime.kOnHold)),
         some (ToWstr (GetItemCount items env.anime.kDropped)),
         some (ToWstr (GetItemCount items env.anime.kPlanToWatch))] := by
  simp only [List.map_cons, List.map_nil, XmlNode.childText, XmlNode.childrenNamed,
    myinfo_node_children]
  simp [text_element_name, text_element_type, text_element_text_pcdata]

theorem anime_node_texts (env : Env) (item : Item) :
    source_field_order.map (fun name => (name, (anime_node env item).childText name))
      = [("series_animedb_id", some (ToWstr item.GetId)),
         ("series_title", some item.GetTitle),
         ("series_type", some (tr_series_type env item.GetType)),
         ("series_episodes", some (ToWstr item.GetEpisodeCount)),
         ("my_id", some (ToWstr 0)),
         ("my_watched_episodes", some (ToWstr item.GetMyLastWatchedEpisode)),
         ("my_start_date", some (Date.to_string env.renderDate item.GetMyDateStart)),
         ("my_finish_date", some (Date.to_string env.renderDate item.GetMyDateEnd)),
         ("my_fansub_group", some ""),
         ("my_rated", some ""),
         ("my_score", some (ToWstr (env.TranslateMyRatingTo item.GetMyScore))),
         ("my_dvd", some ""),
         ("my_storage", some ""),
         ("my_status", some (tr_my_status env item.GetMyStatus)),
         ("my_comments", some item.GetMyNotes),
         ("my_times_watched", some (ToWstr item.GetMyRewatchedTimes)),
         ("my_rewatch_value", some ""),
         ("my_downloaded_eps", some (ToWstr 0)),
         ("my_tags", some item.GetMyTags),
         ("my_rewatching", some (ToWstr (boolToInt item.GetMyRewatching))),
         ("my_rewatching_ep", some (ToWstr item.GetMyRewatchingEp)),
         ("update_on_import", some (ToWstr (boolToInt (env.IsQueued item.GetId))))] := by
  simp only [source_field_order, List.map_cons, List.map_nil, XmlNode.childText,
    XmlNode.childrenNamed, anime_node_children]
  simp [text_element_name, text_element_type, text_element_text_pcdata,
    text_element_text_cdata]

theorem ToWstr_boolToInt (b : Bool) : ToWstr (boolToInt b) = if b then "1" else "0" := by
  cases b <;> decide

theorem nonempty_sorted_status_lists (env : Env) (items : Items) :
    ∀ b ∈ sorted_status_lists env items, b.2 ≠ [] := by
  intro b hb
  obtain ⟨q, hq, rfl⟩ := (mem_sort_status_lists env _ b).1 hb
  have hne := nonempty_collect_from env [] items (by simp) q hq
  intro h
  have h' : std_sort (line_less env) q.2 = [] := h
  have hperm := std_sort_perm (line_less env) q.2
  rw [h'] at hperm
  exact hne hperm.symm.eq_nil

/-- In a sorted list the elements that precede the one at a position all stand
before that position. -/
theorem countP_before_le {α : Type} (comp : α → α → Bool)
    [IsStrictWeakOrder α (fun a b => comp a b = true)] (l₁ l₂ : List α) (a : α)
    (h : (l₁ ++ a :: l₂).Pairwise (fun x y => ¬ comp y x = true)) :
    (l₁ ++ a :: l₂).countP (fun x => comp x a) ≤ l₁.length := by
  rw [List.pairwise_append, List.pairwise_cons] at h
  have hzero : (a :: l₂).countP (fun x => comp x a) = 0 := by
    rw [List.countP_eq_zero]
    intro y hy
    rcases List.mem_cons.1 hy with rfl | hy'
    · exact irrefl_of (fun a b => comp a b = true) y
    · exact h.2.1.1 y hy'
  rw [List.countP_append, hzero, add_zero]
  exact List.countP_le_length _

/-- In a sorted list the elements up to a position do not follow the one at
that position. -/
theorem countP_upto_ge {α : Type} (comp : α → α → Bool)
    [IsStrictWeakOrder α (fun a b => comp a b = true)] (l₁ l₂ : List α) (a : α)
    (h : (l₁ ++ a :: l₂).Pairwise (fun x y => ¬ comp y x = true)) :
    l₁.length + 1 ≤ (l₁ ++ a :: l₂).countP (fun x => !comp a x) := by
  rw [List.pairwise_append] at h
  have hall : l₁.countP (fun x => !comp a x) = l₁.length := by
    rw [List.countP_eq_length]
    intro x hx
    have := h.2.2 x hx a (List.mem_cons_self _ _)
    simpa using this
  have ha : (!comp a a) = true := by
    have := irrefl_of (fun a b => comp a b = true) a
    simpa using this
  have hcons : (a :: l₂).countP (fun x => !comp a x)
      = l₂.countP (fun x => !comp a x) + 1 := by
    simp [List.countP_cons, ha]
  rw [List.countP_append, hall, hcons]
  omega

/-- Two sorted arrangements of the same elements agree position by position up
to elements that compare equal. -/
theorem sorted_perm_pointwise {α : Type} (comp : α → α → Bool)
    [IsStrictWeakOrder α (fun a b => comp a b = true)] (l l' : List α) (hperm : l.Perm l')
    (hl : l.Pairwise (fun x y => ¬ comp y x = true))
    (hl' : l'.Pairwise (fun x y => ¬ comp y x = true)) :
    List.Forall₂ (fun x y => ¬ comp x y = true ∧ ¬ comp y x = true) l l' := by
  have key : ∀ (m m' : List α), m.Perm m' → m.Pairwise (fun x y => ¬ comp y x = true) →
      m'.Pairwise (fun x y => ¬ comp y x = true) →
      ∀ (i : Nat) (h : i < m.length) (h' : i < m'.length), ¬ comp m[i] m'[i] = true := by
    intro m m' hp hm hm' i h h' hlt
    have hsplit : m = m.take i ++ m[i] :: m.drop (i + 1) := by
      rw [List.getElem_cons_drop, List.take_append_drop]
    have hsplit' : m' = m'.take i ++ m'[i] :: m'.drop (i + 1) := by
      rw [List.getElem_cons_drop, List.take_append_drop]
    have h1 := countP_upto_ge comp (m.take i) (m.drop (i + 1)) m[i] (hsplit ▸ hm)
    have h2 := countP_before_le comp (m'.take i) (m'.drop (i + 1)) m'[i] (hsplit' ▸ hm')
    rw [← hsplit] at h1
    rw [← hsplit'] at h2
    rw [List.length_take] at h1 h2
    have h3 : m.countP (fun x => !comp m[i] x) = m'.countP (fun x => !comp m[i] x) :=
      hp.countP_eq _
    have h4 : m'.countP (fun x => !comp m[i] x) ≤ m'.countP (fun x => comp x m'[i]) := by
      apply List.countP_mono_left
      intro x _ hx
      by_contra hc
      have hx' : ¬ comp m[i] x = true := by simpa using hx
      exact not_lt_trans (fun a b => comp a b = true) hc hx' hlt
    have e1 : min i m.length = i := Nat.min_eq_left (Nat.le_of_lt h)
    have e2 : min i m'.length = i := Nat.min_eq_left (Nat.le_of_lt h')
    omega
  rw [List.forall₂_iff_get]
  refine ⟨hperm.length_eq, ?_⟩
  intro i h h'
  simp only [List.get_eq_getElem]
  exact ⟨key l l' hperm hl hl' i h h', key l' l hperm.symm hl' hl i h' h⟩

theorem eq_of_forall₂_of_imp {α : Type} (R : α → α → Prop) (l l' : List α)
    (h : List.Forall₂ R l l') (heq : ∀ x ∈ l, ∀ y ∈ l', R x y → x = y) : l = l' := by
  induction l generalizing l' with
  | nil =>
    cases h
    rfl
  | cons a t ih =>
    cases h with
    | cons hab ht =>
      rename_i b t'
      have e : a = b := heq a (List.mem_cons_self _ _) b (List.mem_cons_self _ _) hab
      rw [e, ih t' ht
        (fun x hx y hy => heq x (List.mem_cons_of_mem _ hx) y (List.mem_cons_of_mem _ hy))]

theorem eq_map_bucket (m : StatusLists) (h : (statusKeys m).Pairwise (· < ·)) :
    m = (statusKeys m).map (fun k => (k, bucket m k)) := by
  have hmap : ∀ p ∈ m, p = (p.1, bucket m p.1) := by
    intro p hp
    rw [bucket_of_mem m h p hp]
  calc m = m.map (fun p => (p.1, bucket m p.1)) := by
        conv_lhs => rw [← List.map_id m]
        exact List.map_congr_left hmap
    _ = (statusKeys m).map (fun k => (k, bucket m k)) := by
        simp [statusKeys, Function.comp_def]

theorem statusKeys_perm (env : Env) (items items' : Items) (hperm : items.Perm items') :
    statusKeys (sorted_status_lists env items')
      = statusKeys (sorted_status_lists env items) := by
  have h1 := keys_sorted_sorted_status_lists env items
  have h2 := keys_sorted_sorted_status_lists env items'
  apply List.eq_of_perm_of_sorted (r := (· < ·)) _ h2 h1
  rw [List.perm_ext_iff_of_nodup (h2.imp ne_of_lt) (h1.imp ne_of_lt)]
  intro k
  rw [mem_keys_sorted_status_lists, mem_keys_sorted_status_lists]
  constructor
  · rintro ⟨p, hp, h⟩; exact ⟨p, hperm.mem_iff.2 hp, h⟩
  · rintro ⟨p, hp, h⟩; exact ⟨p, hperm.mem_iff.1 hp, h⟩

theorem bucket_perm (env : Env) (items items' : Items) (hperm : items.Perm items')
    (status : Int) :
    (bucket (sorted_status_lists env items') status).Perm
      (bucket (sorted_status_lists env items) status) := by
  rw [bucket_sorted_status_lists, bucket_sorted_status_lists]
  exact (std_sort_perm _ _).trans
    ((((hperm.filter _).map _).symm).trans (std_sort_perm _ _).symm)

theorem bucket_pointwise (env : Env) (items items' : Items)
    (hswo : IsStrictWeakOrder String (fun a b => env.CompareStrings a b true < 0))
    (hperm : items.Perm items') (status : Int) :
    List.Forall₂ (compareEqual env) (bucket (sorted_status_lists env items) status)
      (bucket (sorted_status_lists env items') status) := by
  have hinst : IsStrictWeakOrder String (fun a b => line_less env a b = true) := by
    rw [line_less_rel]; exact hswo
  have h := sorted_perm_pointwise (line_less env) _ _ (bucket_perm env items items' hperm status).symm
    (by rw [bucket_sorted_status_lists]; exact std_sort_sorted _ _)
    (by rw [bucket_sorted_status_lists]; exact std_sort_sorted _ _)
  refine h.imp ?_
  intro x y hxy
  simpa [compareEqual, line_less] using hxy

theorem mem_bucket_sorted_status_lists (env : Env) (items : Items) (status : Int) (x : String)
    (hx : x ∈ bucket (sorted_status_lists env items) status) :
    ∃ p ∈ items, p.2.IsInList = true ∧ p.2.GetMyStatus = status ∧ x = markdown_line env p.2 := by
  rw [bucket_sorted_status_lists] at hx
  have hx' := (std_sort_perm _ _).subset hx
  obtain ⟨p, hp, rfl⟩ := List.mem_map.1 hx'
  have hf := List.mem_filter.1 hp
  have hs : p.2.IsInList = true ∧ p.2.GetMyStatus = status := by
    simpa [inListWithStatus] using hf.2
  exact ⟨p, hf.1, hs.1, hs.2, rfl⟩

/-! ## The claims -/

/-- C1: only in-list entries are exported. The `anime` records of the XML
document are the records of the in-list entries, one each and in order; the
Markdown text is the layout of the sorted buckets, and the lines of those
buckets are, up to order, the lines of the in-list entries, one each. An entry
whose in-list flag is false therefore has no record and no line. -/
theorem export_only_in_list (env : Env) (items : Items) :
    animeRecords (MalXmlDocument env items)
        = (items.filter (fun p => p.2.IsInList)).map (fun p => anime_node env p.2)
      ∧ MarkdownText env items = spec_markdown env (sorted_status_lists env items)
      ∧ (allLines (sorted_status_lists env items)).Perm
          ((items.filter (fun p => p.2.IsInList)).map (fun p => markdown_line env p.2)) := by
  refine ⟨animeRecords_eq env items, render_status_lists_eq env _, ?_⟩
  refine (allLines_sort env _).trans ?_
  rw [collect_status_lists_eq]
  simpa [allLines] using allLines_collect_from env [] items

/-- C2 as stated fails: the record of an in-list entry does not list its fields
in the order that puts my_score after my_dvd and my_storage; its eleventh field
is my_score and its twelfth my_dvd. -/
theorem claimed_record_layout_fails :
    (animeRecords (MalXmlDocument sampleEnv sampleItems)).map XmlNode.childNames
        ≠ List.replicate 4 spec_field_order
      ∧ ((animeRecords (MalXmlDocument sampleEnv sampleItems)).map
          (fun r => (r.childNames.get? 10, r.childNames.get? 11))).head?
        = some (some "my_score", some "my_dvd") := by
  decide

/-- C2, amended: every record of the XML document has exactly the 22 fields of
`source_field_order`, in that order: my_score stands between my_rated and
my_dvd, and my_storage immediately before my_status. -/
theorem xml_record_fields_in_source_order (env : Env) (items : Items) :
    (animeRecords (MalXmlDocument env items)).map XmlNode.childNames
        = (items.filter (fun p => p.2.IsInList)).map (fun _ => source_field_order)
      ∧ source_field_order.length = 22 := by
  refine ⟨?_, rfl⟩
  rw [animeRecords_eq, inList_eq]
  simp [anime_node_childNames, source_field_order, Function.comp_def]

/-- C3: the text of `user_total_anime` in the single `myinfo` block is the
number of in-list entries, which is the number of `anime` records of the same
document. -/
theorem xml_total_count (env : Env) (items : Items) :
    (myinfoBlocks (MalXmlDocument env items)).map (fun b => b.childText "user_total_anime")
        = [some (ToWstr ((items.filter (fun p => p.2.IsInList)).length : Int))]
      ∧ (animeRecords (MalXmlDocument env items)).length
        = (items.filter (fun p => p.2.IsInList)).length := by
  constructor
  · rw [myinfoBlocks_eq]
    simp only [List.map_cons, List.map_nil, myinfo_total_text, count_total_anime_eq]
    rfl
  · rw [animeRecords_eq, List.length_map, inList_eq]

/-- C4: each per-status count written to the `myinfo` block is the number of
in-list entries with that status; it does not depend on the order of the
entries, it counts the entries of the emitted records that have that status,
and it never exceeds the re-scanned total. -/
theorem xml_status_counts (env : Env) (items items' : Items) (hperm : items.Perm items') :
    (myinfoBlocks (MalXmlDocument env items)).map
        (fun b => [b.childText "user_total_watching", b.childText "user_total_completed",
          b.childText "user_total_onhold", b.childText "user_total_dropped",
          b.childText "user_total_plantowatch"])
      = [[env.anime.kWatching, env.anime.kCompleted, env.anime.kOnHold, env.anime.kDropped,
            env.anime.kPlanToWatch].map
          (fun status => some (ToWstr
            ((items.filter (fun p => p.2.IsInList ∧ p.2.GetMyStatus = status)).length : Int)))]
      ∧ (∀ status, GetItemCount items' status = GetItemCount items status)
      ∧ (∀ status, GetItemCount items status
          = (((items.filter (fun p => p.2.IsInList)).filter
              (fun p => decide (p.2.GetMyStatus = status))).length : Int))
      ∧ (∀ status, GetItemCount items status ≤ count_total_anime items)
      ∧ ([env.anime.kWatching, env.anime.kCompleted, env.anime.kOnHold, env.anime.kDropped,
            env.anime.kPlanToWatch].Nodup →
          GetItemCount items env.anime.kWatching + GetItemCount items env.anime.kCompleted
            + GetItemCount items env.anime.kOnHold + GetItemCount items env.anime.kDropped
            + GetItemCount items env.anime.kPlanToWatch ≤ count_total_anime items) := by
  have hfilter : ∀ status,
      items.filter (fun p => decide (p.2.IsInList = true ∧ p.2.GetMyStatus = status))
        = items.filter (inListWithStatus status) := by
    intro status
    congr 1
    funext p
    simp [inListWithStatus]
  refine ⟨?_, ?_, ?_, ?_, ?_⟩
  · rw [myinfoBlocks_eq]
    simp only [List.map_cons, List.map_nil, myinfo_status_texts, GetItemCount_eq, hfilter]
  · intro status
    rw [GetItemCount_eq, GetItemCount_eq, (hperm.filter _).length_eq]
  · intro status
    rw [GetItemCount_eq, filter_inListWithStatus]
  · intro status
    rw [GetItemCount_eq, count_total_anime_eq, filter_inListWithStatus, inList_eq]
    exact_mod_cast List.length_filter_le _ _
  · intro hnodup
    have hsum := sum_status_counts (items.filter (fun p => p.2.IsInList)) _ hnodup
    simp only [List.map_cons, List.map_nil, List.sum_cons, List.sum_nil, add_zero] at hsum
    simp only [GetItemCount_eq, count_total_anime_eq, filter_inListWithStatus, inList_eq]
    have hle : (((items.filter (fun p => p.2.IsInList)).filter
        (fun p => decide (p.2.GetMyStatus ∈ [env.anime.kWatching, env.anime.kCompleted,
          env.anime.kOnHold, env.anime.kDropped, env.anime.kPlanToWatch]))).length : Int)
        ≤ ((items.filter (fun p => p.2.IsInList)).length : Int) := by
      exact_mod_cast List.length_filter_le _ _
    omega

/-- C4 at the sample library and its reverse. -/
theorem xml_status_counts_witness :
    sampleItems.Perm sampleItems.reverse
    ∧ ((myinfoBlocks (MalXmlDocument sampleEnv sampleItems)).map
        (fun b => [b.childText "user_total_watching", b.childText "user_total_completed",
          b.childText "user_total_onhold", b.childText "user_total_dropped",
          b.childText "user_total_plantowatch"])
      = [[sampleEnv.anime.kWatching, sampleEnv.anime.kCompleted, sampleEnv.anime.kOnHold,
            sampleEnv.anime.kDropped, sampleEnv.anime.kPlanToWatch].map
          (fun status => some (ToWstr
            ((sampleItems.filter
              (fun p => p.2.IsInList ∧ p.2.GetMyStatus = status)).length : Int)))]
      ∧ (∀ status, GetItemCount sampleItems.reverse status = GetItemCount sampleItems status)
      ∧ (∀ status, GetItemCount sampleItems status
          = (((sampleItems.filter (fun p => p.2.IsInList)).filter
              (fun p => decide (p.2.GetMyStatus = status))).length : Int))
      ∧ (∀ status, GetItemCount sampleItems status ≤ count_total_anime sampleItems)
      ∧ ([sampleEnv.anime.kWatching, sampleEnv.anime.kCompleted, sampleEnv.anime.kOnHold,
            sampleEnv.anime.kDropped, sampleEnv.anime.kPlanToWatch].Nodup →
          GetItemCount sampleItems sampleEnv.anime.kWatching
            + GetItemCount sampleItems sampleEnv.anime.kCompleted
            + GetItemCount sampleItems sampleEnv.anime.kOnHold
            + GetItemCount sampleItems sampleEnv.anime.kDropped
            + GetItemCount sampleItems sampleEnv.anime.kPlanToWatch
            ≤ count_total_anime sampleItems)) :=
  ⟨(List.reverse_perm sampleItems).symm,
    xml_status_counts sampleEnv sampleItems sampleItems.reverse
      (List.reverse_perm sampleItems).symm⟩

/-- C5: the ids of the records of the XML document, read in document order, are
the ids of the in-list entries in iteration order, each entry once; they form
a subsequence of the ids of all entries. -/
theorem xml_records_in_order (env : Env) (items : Items) :
    (animeRecords (MalXmlDocument env items)).map (fun r => r.childText "series_animedb_id")
        = (items.filter (fun p => p.2.IsInList)).map (fun p => some (ToWstr p.2.GetId))
      ∧ ((items.filter (fun p => p.2.IsInList)).map (fun p => some (ToWstr p.2.GetId))).Sublist
          (items.map (fun p => some (ToWstr p.2.GetId))) := by
  constructor
  · rw [animeRecords_eq, inList_eq]
    simp [anime_node_id_text, Function.comp_def]
  · exact List.Sublist.map _ (List.filter_sublist _)

/-- C6: the statuses of the sections of the Markdown text (the text is the
layout of the sorted buckets, in their order) are strictly ascending, so each
status heads at most one section, and they are the same whatever the order of
the entries. -/
theorem markdown_sections_ascending (env : Env) (items items' : Items)
    (hperm : items.Perm items') :
    MarkdownText env items = spec_markdown env (sorted_status_lists env items)
      ∧ (statusKeys (sorted_status_lists env items)).Pairwise (· < ·)
      ∧ statusKeys (sorted_status_lists env items')
        = statusKeys (sorted_status_lists env items) := by
  refine ⟨render_status_lists_eq env _, keys_sorted_sorted_status_lists env items, ?_⟩
  have h1 := keys_sorted_sorted_status_lists env items
  have h2 := keys_sorted_sorted_status_lists env items'
  apply List.eq_of_perm_of_sorted (r := (· < ·)) _ h2 h1
  rw [List.perm_ext_iff_of_nodup (h2.imp ne_of_lt) (h1.imp ne_of_lt)]
  intro k
  rw [mem_keys_sorted_status_lists, mem_keys_sorted_status_lists]
  constructor
  · rintro ⟨p, hp, h⟩; exact ⟨p, hperm.mem_iff.2 hp, h⟩
  · rintro ⟨p, hp, h⟩; exact ⟨p, hperm.mem_iff.1 hp, h⟩

/-- C6 at the sample library and its reverse: the sections are those of
statuses 1 and 2, in this order. -/
theorem markdown_sections_ascending_witness :
    sampleItems.Perm sampleItems.reverse
    ∧ (MarkdownText sampleEnv sampleItems
        = spec_markdown sampleEnv (sorted_status_lists sampleEnv sampleItems)
      ∧ (statusKeys (sorted_status_lists sampleEnv sampleItems)).Pairwise (· < ·)
      ∧ statusKeys (sorted_status_lists sampleEnv sampleItems.reverse)
        = statusKeys (sorted_status_lists sampleEnv sampleItems))
    ∧ statusKeys (sorted_status_lists sampleEnv sampleItems.reverse) = [1, 2] :=
  ⟨(List.reverse_perm sampleItems).symm,
    markdown_sections_ascending sampleEnv sampleItems sampleItems.reverse
      (List.reverse_perm sampleItems).symm,
    by decide⟩

/-- C7: every section of the Markdown text lists a permutation of the lines of
the in-list entries with the status of the section, in non-decreasing order of
`CompareStrings(a, b, true)`, when that comparison is a strict weak order. -/
theorem markdown_section_sorted_perm (env : Env) (items : Items)
    (hswo : IsStrictWeakOrder String (fun a b => env.CompareStrings a b true < 0))
    (b : Int × List String) (hb : b ∈ sorted_status_lists env items) :
    b.2.Perm
        ((items.filter (fun p => p.2.IsInList ∧ p.2.GetMyStatus = b.1)).map
          (fun p => markdown_line env p.2))
      ∧ b.2.Pairwise (fun x y => ¬ env.CompareStrings y x true < 0) := by
  have hb' : bucket (sorted_status_lists env items) b.1 = b.2 :=
    bucket_of_mem _ (keys_sorted_sorted_status_lists env items) b hb
  have hfilter :
      items.filter (fun p => decide (p.2.IsInList = true ∧ p.2.GetMyStatus = b.1))
        = items.filter (inListWithStatus b.1) := by
    congr 1
    funext p
    simp [inListWithStatus]
  rw [bucket_sorted_status_lists] at hb'
  rw [← hb', hfilter]
  refine ⟨std_sort_perm _ _, ?_⟩
  have hinst : IsStrictWeakOrder String (fun a b => line_less env a b = true) := by
    rw [line_less_rel]; exact hswo
  have hsorted := std_sort_sorted (line_less env)
    ((items.filter (inListWithStatus b.1)).map (fun p => markdown_line env p.2))
  refine hsorted.imp ?_
  intro x y hxy h
  exact hxy (by simpa [line_less] using h)

/-- C7 at the sample library: the entries titled zeta, Alpha and beta share
status 1 and their lines are listed as Alpha, beta, zeta. -/
theorem markdown_section_sorted_perm_witness :
    (IsStrictWeakOrder String (fun a b => sampleEnv.CompareStrings a b true < 0)
      ∧ (1, ["Alpha (3/24)", "beta (3/13)", "zeta (3/12)"])
          ∈ sorted_status_lists sampleEnv sampleItems)
    ∧ (["Alpha (3/24)", "beta (3/13)", "zeta (3/12)"].Perm
        ((sampleItems.filter (fun p => p.2.IsInList ∧ p.2.GetMyStatus = 1)).map
          (fun p => markdown_line sampleEnv p.2))
      ∧ ["Alpha (3/24)", "beta (3/13)", "zeta (3/12)"].Pairwise
          (fun x y => ¬ sampleEnv.CompareStrings y x true < 0)) :=
  ⟨⟨sampleCompare_swo, by decide⟩,
    markdown_section_sorted_perm sampleEnv sampleItems sampleCompare_swo
      (1, ["Alpha (3/24)", "beta (3/13)", "zeta (3/12)"]) (by decide)⟩

/-- C8: the line of an in-list entry is its preferred title, a space, and in
parentheses the last watched episode, a slash and the episode count in decimal
when it is known or "?" when it is not; the line stands in the section of the
entry's status. -/
theorem markdown_line_format (env : Env) (items : Items) (p : Int × Item)
    (hp : p ∈ items) (hin : p.2.IsInList = true) :
    markdown_line env p.2
        = env.GetPreferredTitle p.2 ++ " (" ++ ToWstr p.2.GetMyLastWatchedEpisode ++ "/"
          ++ (if env.isKnownNumber p.2.GetEpisodeCount then ToWstr p.2.GetEpisodeCount else "?")
          ++ ")"
      ∧ (env.isKnownNumber p.2.GetEpisodeCount = false →
          markdown_line env p.2
            = env.GetPreferredTitle p.2 ++ " (" ++ ToWstr p.2.GetMyLastWatchedEpisode ++ "/?)")
      ∧ markdown_line env p.2 ∈ bucket (sorted_status_lists env items) p.2.GetMyStatus := by
  refine ⟨rfl, ?_, ?_⟩
  · intro h
    have h2 : "/" ++ ("?" ++ ")") = "/?)" := by decide
    simp only [markdown_line, TranslateNumber, h, String.append_assoc, h2]
    simp
  · rw [bucket_sorted_status_lists]
    apply (std_sort_perm _ _).symm.subset
    exact List.mem_map.2 ⟨p, List.mem_filter.2 ⟨hp, by simp [inListWithStatus, hin]⟩, rfl⟩

/-- C8 at the sample library: the entry "Omega" has no known episode count and
its line is "Omega (3/?)". -/
theorem markdown_line_format_witness :
    ((5, sampleItem 5 "Omega" 2 0 true) ∈ sampleItems
      ∧ (sampleItem 5 "Omega" 2 0 true).IsInList = true)
    ∧ (markdown_line sampleEnv (sampleItem 5 "Omega" 2 0 true)
        = sampleEnv.GetPreferredTitle (sampleItem 5 "Omega" 2 0 true) ++ " ("
          ++ ToWstr (sampleItem 5 "Omega" 2 0 true).GetMyLastWatchedEpisode ++ "/"
          ++ (if sampleEnv.isKnownNumber (sampleItem 5 "Omega" 2 0 true).GetEpisodeCount
              then ToWstr (sampleItem 5 "Omega" 2 0 true).GetEpisodeCount else "?")
          ++ ")"
      ∧ (sampleEnv.isKnownNumber (sampleItem 5 "Omega" 2 0 true).GetEpisodeCount = false →
          markdown_line sampleEnv (sampleItem 5 "Omega" 2 0 true)
            = sampleEnv.GetPreferredTitle (sampleItem 5 "Omega" 2 0 true) ++ " ("
              ++ ToWstr (sampleItem 5 "Omega" 2 0 true).GetMyLastWatchedEpisode ++ "/?)")
      ∧ markdown_line sampleEnv (sampleItem 5 "Omega" 2 0 true)
          ∈ bucket (sorted_status_lists sampleEnv sampleItems)
              (sampleItem 5 "Omega" 2 0 true).GetMyStatus)
    ∧ markdown_line sampleEnv (sampleItem 5 "Omega" 2 0 true) = "Omega (3/?)" :=
  ⟨⟨by decide, rfl⟩,
    markdown_line_format sampleEnv sampleItems (5, sampleItem 5 "Omega" 2 0 true)
      (by decide) rfl,
    by decide⟩

/-- C9: the Markdown text is the sections of the buckets in order, each a
heading line with the long display name, a blank line and one "- " item line
per line of the bucket, joined by one extra line break; no bucket is empty; a
non-empty text starts with the heading mark, not with a blank line, and ends
with a line break. -/
theorem markdown_layout (env : Env) (items : Items) :
    MarkdownText env items
        = String.intercalate "\r\n"
            ((sorted_status_lists env items).map (fun b =>
              "# " ++ env.TranslateMyStatus b.1 true ++ "\r\n\r\n"
                ++ String.join (b.2.map (fun line => "- " ++ line ++ "\r\n"))))
      ∧ (∀ b ∈ sorted_status_lists env items, b.2 ≠ [])
      ∧ (MarkdownText env items = "" ∨ ∃ rest, MarkdownText env items = "# " ++ rest)
      ∧ (MarkdownText env items = "" ∨ ∃ body, MarkdownText env items = body ++ "\r\n") := by
  refine ⟨render_status_lists_eq env _, ?_, render_starts env _, render_ends env _⟩
  intro b hb
  obtain ⟨q, hq, rfl⟩ := (mem_sort_status_lists env _ b).1 hb
  have hne := nonempty_collect_from env [] items (by simp) q hq
  intro h
  have h' : std_sort (line_less env) q.2 = [] := h
  have hperm := std_sort_perm (line_less env) q.2
  rw [h'] at hperm
  exact hne hperm.symm.eq_nil


/-- C10: in the record of an in-list entry, my_start_date is the empty string
when the start date is unset and my_finish_date is the empty string when the
end date is unset. -/
theorem xml_unset_dates_empty (env : Env) (items : Items) (p : Int × Item)
    (hp : p ∈ items) (hin : p.2.IsInList = true) :
    anime_node env p.2 ∈ animeRecords (MalXmlDocument env items)
      ∧ (p.2.GetMyDateStart = none →
          (anime_node env p.2).childText "my_start_date" = some "")
      ∧ (p.2.GetMyDateEnd = none →
          (anime_node env p.2).childText "my_finish_date" = some "") := by
  refine ⟨?_, ?_, ?_⟩
  · rw [animeRecords_eq]
    exact List.mem_map.2 ⟨p, List.mem_filter.2 ⟨hp, hin⟩, rfl⟩
  · intro h
    rw [anime_node_start_text, h]
    rfl
  · intro h
    rw [anime_node_finish_text, h]
    rfl

/-- C10 at the sample library: the entry "Alpha" is in the list with both dates
unset. -/
theorem xml_unset_dates_empty_witness :
    ((2, sampleItem 2 "Alpha" 1 24 true) ∈ sampleItems
      ∧ (sampleItem 2 "Alpha" 1 24 true).IsInList = true)
    ∧ (anime_node sampleEnv (sampleItem 2 "Alpha" 1 24 true)
          ∈ animeRecords (MalXmlDocument sampleEnv sampleItems)
        ∧ ((sampleItem 2 "Alpha" 1 24 true).GetMyDateStart = none →
            (anime_node sampleEnv (sampleItem 2 "Alpha" 1 24 true)).childText "my_start_date"
              = some "")
        ∧ ((sampleItem 2 "Alpha" 1 24 true).GetMyDateEnd = none →
            (anime_node sampleEnv (sampleItem 2 "Alpha" 1 24 true)).childText "my_finish_date"
              = some "")) :=
  ⟨⟨by decide, rfl⟩,
    xml_unset_dates_empty sampleEnv sampleItems (2, sampleItem 2 "Alpha" 1 24 true)
      (by decide) rfl⟩

/-- C11: with the seven enumerators distinct, as the case labels of a switch
are, `tr_series_type` maps a translated code of unknown, TV, OVA, movie,
special, ONA, music to "Unknown", "TV", "OVA", "Movie", "Special", "ONA",
"Music", and every other translated code to "Unknown"; for every input the
result is one of these seven labels. -/
theorem tr_series_type_table (env : Env) (type : Int)
    (hdistinct : [env.mal.kUnknownType, env.mal.kTv, env.mal.kOva, env.mal.kMovie,
      env.mal.kSpecial, env.mal.kOna, env.mal.kMusic].Nodup) :
    (env.TranslateSeriesTypeTo type = env.mal.kUnknownType →
        tr_series_type env type = "Unknown")
      ∧ (env.TranslateSeriesTypeTo type = env.mal.kTv → tr_series_type env type = "TV")
      ∧ (env.TranslateSeriesTypeTo type = env.mal.kOva → tr_series_type env type = "OVA")
      ∧ (env.TranslateSeriesTypeTo type = env.mal.kMovie → tr_series_type env type = "Movie")
      ∧ (env.TranslateSeriesTypeTo type = env.mal.kSpecial →
          tr_series_type env type = "Special")
      ∧ (env.TranslateSeriesTypeTo type = env.mal.kOna → tr_series_type env type = "ONA")
      ∧ (env.TranslateSeriesTypeTo type = env.mal.kMusic → tr_series_type env type = "Music")
      ∧ (env.TranslateSeriesTypeTo type ∉ [env.mal.kUnknownType, env.mal.kTv, env.mal.kOva,
            env.mal.kMovie, env.mal.kSpecial, env.mal.kOna, env.mal.kMusic] →
          tr_series_type env type = "Unknown")
      ∧ tr_series_type env type ∈ ["Unknown", "TV", "OVA", "Movie", "Special", "ONA", "Music"] := by
  simp only [List.nodup_cons, List.mem_cons, List.mem_singleton, List.not_mem_nil, not_or,
    List.nodup_nil, or_false, not_false_eq_true, and_true] at hdistinct
  obtain ⟨⟨h01, h02, h03, h04, h05, h06⟩, ⟨h12, h13, h14, h15, h16⟩, ⟨h23, h24, h25, h26⟩,
    ⟨h34, h35, h36⟩, ⟨h45, h46⟩, h56⟩ := hdistinct
  refine ⟨?_, ?_, ?_, ?_, ?_, ?_, ?_, ?_, ?_⟩
  · intro h; simp [tr_series_type, h]
  · intro h; simp [tr_series_type, h, Ne.symm h01]
  · intro h; simp [tr_series_type, h, Ne.symm h02, Ne.symm h12]
  · intro h; simp [tr_series_type, h, Ne.symm h03, Ne.symm h13, Ne.symm h23]
  · intro h; simp [tr_series_type, h, Ne.symm h04, Ne.symm h14, Ne.symm h24, Ne.symm h34]
  · intro h
    simp [tr_series_type, h, Ne.symm h05, Ne.symm h15, Ne.symm h25, Ne.symm h35, Ne.symm h45]
  · intro h
    simp [tr_series_type, h, Ne.symm h06, Ne.symm h16, Ne.symm h26, Ne.symm h36, Ne.symm h46,
      Ne.symm h56]
  · intro h
    simp only [List.mem_cons, List.mem_singleton, List.not_mem_nil, or_false, not_or] at h
    simp [tr_series_type, h]
  · unfold tr_series_type
    simp only []
    split_ifs <;> simp

/-- C11 at the sample collaborators, whose enumerators are 0 to 6: the code 3
is the movie. -/
theorem tr_series_type_table_witness :
    [sampleEnv.mal.kUnknownType, sampleEnv.mal.kTv, sampleEnv.mal.kOva, sampleEnv.mal.kMovie,
        sampleEnv.mal.kSpecial, sampleEnv.mal.kOna, sampleEnv.mal.kMusic].Nodup
    ∧ ((sampleEnv.TranslateSeriesTypeTo 3 = sampleEnv.mal.kUnknownType →
        tr_series_type sampleEnv 3 = "Unknown")
      ∧ (sampleEnv.TranslateSeriesTypeTo 3 = sampleEnv.mal.kTv →
          tr_series_type sampleEnv 3 = "TV")
      ∧ (sampleEnv.TranslateSeriesTypeTo 3 = sampleEnv.mal.kOva →
          tr_series_type sampleEnv 3 = "OVA")
      ∧ (sampleEnv.TranslateSeriesTypeTo 3 = sampleEnv.mal.kMovie →
          tr_series_type sampleEnv 3 = "Movie")
      ∧ (sampleEnv.TranslateSeriesTypeTo 3 = sampleEnv.mal.kSpecial →
          tr_series_type sampleEnv 3 = "Special")
      ∧ (sampleEnv.TranslateSeriesTypeTo 3 = sampleEnv.mal.kOna →
          tr_series_type sampleEnv 3 = "ONA")
      ∧ (sampleEnv.TranslateSeriesTypeTo 3 = sampleEnv.mal.kMusic →
          tr_series_type sampleEnv 3 = "Music")
      ∧ (sampleEnv.TranslateSeriesTypeTo 3 ∉ [sampleEnv.mal.kUnknownType, sampleEnv.mal.kTv,
            sampleEnv.mal.kOva, sampleEnv.mal.kMovie, sampleEnv.mal.kSpecial,
            sampleEnv.mal.kOna, sampleEnv.mal.kMusic] →
          tr_series_type sampleEnv 3 = "Unknown")
      ∧ tr_series_type sampleEnv 3
          ∈ ["Unknown", "TV", "OVA", "Movie", "Special", "ONA", "Music"])
    ∧ tr_series_type sampleEnv 3 = "Movie"
    ∧ tr_series_type sampleEnv 77 = "Unknown" :=
  ⟨by decide, tr_series_type_table sampleEnv 3 (by decide), by decide, by decide⟩

/-- C12: with the five enumerators distinct, as the case labels of a switch
are, `tr_my_status` maps a translated code of watching, completed, on-hold,
dropped, plan-to-watch to "Watching", "Completed", "On-Hold", "Dropped",
"Plan to Watch", and every other translated code to the fallback "Watching";
for every input the result is one of these five labels. -/
theorem tr_my_status_table (env : Env) (status : Int)
    (hdistinct : [env.mal.kWatching, env.mal.kCompleted, env.mal.kOnHold, env.mal.kDropped,
      env.mal.kPlanToWatch].Nodup) :
    (env.TranslateMyStatusTo status = env.mal.kWatching →
        tr_my_status env status = "Watching")
      ∧ (env.TranslateMyStatusTo status = env.mal.kCompleted →
          tr_my_status env status = "Completed")
      ∧ (env.TranslateMyStatusTo status = env.mal.kOnHold →
          tr_my_status env status = "On-Hold")
      ∧ (env.TranslateMyStatusTo status = env.mal.kDropped →
          tr_my_status env status = "Dropped")
      ∧ (env.TranslateMyStatusTo status = env.mal.kPlanToWatch →
          tr_my_status env status = "Plan to Watch")
      ∧ (env.TranslateMyStatusTo status ∉ [env.mal.kWatching, env.mal.kCompleted,
            env.mal.kOnHold, env.mal.kDropped, env.mal.kPlanToWatch] →
          tr_my_status env status = "Watching")
      ∧ tr_my_status env status
          ∈ ["Watching", "Completed", "On-Hold", "Dropped", "Plan to Watch"] := by
  simp only [List.nodup_cons, List.mem_cons, List.mem_singleton, List.not_mem_nil, not_or,
    List.nodup_nil, or_false, not_false_eq_true, and_true] at hdistinct
  obtain ⟨⟨h01, h02, h03, h04⟩, ⟨h12, h13, h14⟩, ⟨h23, h24⟩, h34⟩ := hdistinct
  refine ⟨?_, ?_, ?_, ?_, ?_, ?_, ?_⟩
  · intro h; simp [tr_my_status, h]
  · intro h; simp [tr_my_status, h, Ne.symm h01]
  · intro h; simp [tr_my_status, h, Ne.symm h02, Ne.symm h12]
  · intro h; simp [tr_my_status, h, Ne.symm h03, Ne.symm h13, Ne.symm h23]
  · intro h; simp [tr_my_status, h, Ne.symm h04, Ne.symm h14, Ne.symm h24, Ne.symm h34]
  · intro h
    simp only [List.mem_cons, List.mem_singleton, List.not_mem_nil, or_false, not_or] at h
    simp [tr_my_status, h]
  · unfold tr_my_status
    simp only []
    split_ifs <;> simp

/-- C12 at the sample collaborators: the code 6 is plan-to-watch and the code 0
falls to the fallback. -/
theorem tr_my_status_table_witness :
    [sampleEnv.mal.kWatching, sampleEnv.mal.kCompleted, sampleEnv.mal.kOnHold,
        sampleEnv.mal.kDropped, sampleEnv.mal.kPlanToWatch].Nodup
    ∧ ((sampleEnv.TranslateMyStatusTo 0 = sampleEnv.mal.kWatching →
        tr_my_status sampleEnv 0 = "Watching")
      ∧ (sampleEnv.TranslateMyStatusTo 0 = sampleEnv.mal.kCompleted →
          tr_my_status sampleEnv 0 = "Completed")
      ∧ (sampleEnv.TranslateMyStatusTo 0 = sampleEnv.mal.kOnHold →
          tr_my_status sampleEnv 0 = "On-Hold")
      ∧ (sampleEnv.TranslateMyStatusTo 0 = sampleEnv.mal.kDropped →
          tr_my_status sampleEnv 0 = "Dropped")
      ∧ (sampleEnv.TranslateMyStatusTo 0 = sampleEnv.mal.kPlanToWatch →
          tr_my_status sampleEnv 0 = "Plan to Watch")
      ∧ (sampleEnv.TranslateMyStatusTo 0 ∉ [sampleEnv.mal.kWatching,
            sampleEnv.mal.kCompleted, sampleEnv.mal.kOnHold, sampleEnv.mal.kDropped,
            sampleEnv.mal.kPlanToWatch] →
          tr_my_status sampleEnv 0 = "Watching")
      ∧ tr_my_status sampleEnv 0
          ∈ ["Watching", "Completed", "On-Hold", "Dropped", "Plan to Watch"])
    ∧ tr_my_status sampleEnv 6 = "Plan to Watch"
    ∧ tr_my_status sampleEnv 0 = "Watching" :=
  ⟨by decide, tr_my_status_table sampleEnv 0 (by decide), by decide, by decide⟩

/-- C13: each exporter returns exactly what its sink returns for the one write
it makes. `ExportAsMalXml` succeeds if and only if `XmlSaveDocumentToFile`
succeeds on the assembled document and the path; `ExportAsMarkdown` succeeds if
and only if `SaveToFile` succeeds on the narrowed text, the path and no
append; each adds exactly one call to the log of sink calls; with sinks that
succeed, both exporters succeed on every library. -/
theorem export_result_is_sink_result (env : Env) (items : Items) (path : String)
    (log : List SinkCall) :
    (ExportAsMalXml env items path = true
        ↔ env.XmlSaveDocumentToFile (MalXmlDocument env items) path = true)
      ∧ (ExportAsMarkdown env items path = true
        ↔ env.SaveToFile (env.WstrToStr (MarkdownText env items)) path false = true)
      ∧ ExportAsMalXml_traced env items path log
        = (ExportAsMalXml env items path,
            log ++ [SinkCall.XmlSaveDocumentToFile (MalXmlDocument env items) path])
      ∧ ExportAsMarkdown_traced env items path log
        = (ExportAsMarkdown env items path,
            log ++ [SinkCall.SaveToFile (env.WstrToStr (MarkdownText env items)) path false])
      ∧ (ExportAsMalXml_traced env items path log).2.length = log.length + 1
      ∧ (ExportAsMarkdown_traced env items path log).2.length = log.length + 1
      ∧ ((∀ document p, env.XmlSaveDocumentToFile document p = true) →
          ExportAsMalXml env items path = true)
      ∧ ((∀ data p append, env.SaveToFile data p append = true) →
          ExportAsMarkdown env items path = true) := by
  refine ⟨Iff.rfl, Iff.rfl, rfl, rfl, ?_, ?_, ?_, ?_⟩
  · simp [ExportAsMalXml_traced]
  · simp [ExportAsMarkdown_traced]
  · intro h; exact h _ _
  · intro h; exact h _ _ _

/-- C14: a library with no in-list entry gives the empty Markdown text: no
bucket, no heading, no list item, zero characters. -/
theorem markdown_empty_without_in_list (env : Env) (items : Items)
    (hnone : ∀ p ∈ items, p.2.IsInList = false) :
    MarkdownText env items = ""
      ∧ (MarkdownText env items).length = 0
      ∧ sorted_status_lists env items = [] := by
  have hcollect : collect_status_lists env items = [] := by
    rw [collect_status_lists_eq]
    exact collect_from_not_in_list env [] items hnone
  have hsorted : sorted_status_lists env items = [] := by
    rw [sorted_status_lists, hcollect]
    rfl
  have htext : MarkdownText env items = "" := by
    rw [MarkdownText, hsorted]
    rfl
  refine ⟨htext, ?_, hsorted⟩
  rw [htext]
  rfl

/-- C14 at a library whose two entries are both outside the list. -/
theorem markdown_empty_without_in_list_witness :
    (∀ p ∈ sampleItemsNotInList, p.2.IsInList = false)
    ∧ (MarkdownText sampleEnv sampleItemsNotInList = ""
      ∧ (MarkdownText sampleEnv sampleItemsNotInList).length = 0
      ∧ sorted_status_lists sampleEnv sampleItemsNotInList = []) :=
  ⟨by decide, markdown_empty_without_in_list sampleEnv sampleItemsNotInList (by decide)⟩

/-- C15: a second run that differs only in the tool version and the current
date and time assembles the document of the first run with the generation
comment replaced and nothing else changed: the document has one declaration,
one comment and one root in this order, and declaration and root (the myinfo
block and the sequence of records) are the same; the Markdown text of the
second run is the text of the first. -/
theorem export_stable_across_runs (env : Env) (items : Items) (version : String)
    (date : Date) (time : String) :
    MalXmlDocument (env.atRun version date time) items
        = { MalXmlDocument env items with
            children := (MalXmlDocument env items).children.map (fun c =>
              if c.type = .node_comment then comment_node (env.atRun version date time)
              else c) }
      ∧ (MalXmlDocument env items).children.map XmlNode.type
        = [.node_declaration, .node_comment, .node_element]
      ∧ (MalXmlDocument (env.atRun version date time) items).children.filter
          (fun c => decide (c.type ≠ .node_comment))
        = (MalXmlDocument env items).children.filter
          (fun c => decide (c.type ≠ .node_comment))
      ∧ XmlNode.root (MalXmlDocument (env.atRun version date time) items)
        = XmlNode.root (MalXmlDocument env items)
      ∧ MarkdownText (env.atRun version date time) items = MarkdownText env items := by
  have hdecl : declaration_node.type = .node_declaration := rfl
  have hcomment : ∀ e : Env, (comment_node e).type = .node_comment := fun _ => rfl
  refine ⟨?_, ?_, ?_, ?_, MarkdownText_atRun env version date time items⟩
  · simp only [MalXmlDocument_children, List.map_cons, List.map_nil, hdecl, hcomment,
      myanimelist_node_type]
    simp only [MalXmlDocument, XmlNode.append_child, XmlNode.prepend_child, XmlNode.document,
      myanimelist_node_atRun]
    simp
  · simp only [MalXmlDocument_children, List.map_cons, List.map_nil, hdecl, hcomment,
      myanimelist_node_type]
  · simp only [MalXmlDocument_children, myanimelist_node_atRun, List.filter_cons, hdecl,
      hcomment, myanimelist_node_type]
    simp
  · rw [root_MalXmlDocument, root_MalXmlDocument, myanimelist_node_atRun]

/-- C16: the document has one element child, the root `myanimelist`; the
children of the root are one `myinfo` block followed by `anime` records only;
the block lists user_name, user_export_type and the six totals in this order
(after user_id), with user_name the current username, user_export_type the
constant 1 and each total the text of its count. -/
theorem xml_document_shape (env : Env) (items : Items) :
    (MalXmlDocument env items).children.filter (fun c => decide (c.type = .node_element))
        = [XmlNode.root (MalXmlDocument env items)]
      ∧ (XmlNode.root (MalXmlDocument env items)).name = "myanimelist"
      ∧ (XmlNode.root (MalXmlDocument env items)).children
        = myinfo_node env items
          :: (items.filter (fun p => p.2.IsInList)).map (fun p => anime_node env p.2)
      ∧ (myinfo_node env items).name = "myinfo"
      ∧ myinfoBlocks (MalXmlDocument env items) = [myinfo_node env items]
      ∧ (∀ c ∈ (XmlNode.root (MalXmlDocument env items)).children.tail,
          c.type = .node_element ∧ c.name = "anime")
      ∧ (myinfo_node env items).childNames
        = ["user_id", "user_name", "user_export_type", "user_total_anime",
           "user_total_watching", "user_total_completed", "user_total_onhold",
           "user_total_dropped", "user_total_plantowatch"]
      ∧ ["user_name", "user_export_type", "user_total_anime", "user_total_watching",
           "user_total_completed", "user_total_onhold", "user_total_dropped",
           "user_total_plantowatch"].map (fun name => (myinfo_node env items).childText name)
        = [some env.GetCurrentUsername, some "1", some (ToWstr (count_total_anime items)),
           some (ToWstr (GetItemCount items env.anime.kWatching)),
           some (ToWstr (GetItemCount items env.anime.kCompleted)),
           some (ToWstr (GetItemCount items env.anime.kOnHold)),
           some (ToWstr (GetItemCount items env.anime.kDropped)),
           some (ToWstr (GetItemCount items env.anime.kPlanToWatch))] := by
  have hdecl : declaration_node.type = .node_declaration := rfl
  have hcomment : (comment_node env).type = .node_comment := rfl
  have hone : ToWstr 1 = "1" := by decide
  refine ⟨?_, ?_, ?_, rfl, myinfoBlocks_eq env items, ?_, myinfo_node_childNames env items, ?_⟩
  · rw [root_MalXmlDocument]
    simp only [MalXmlDocument_children, List.filter_cons, hdecl, hcomment,
      myanimelist_node_type]
    simp
  · rw [root_MalXmlDocument, myanimelist_node_name]
  · rw [root_MalXmlDocument, myanimelist_node_eq]
    rfl
  · rw [root_MalXmlDocument, myanimelist_node_eq]
    intro c hc
    simp only [List.tail_cons] at hc
    obtain ⟨p, -, rfl⟩ := List.mem_map.1 hc
    exact ⟨anime_node_type env p.2, anime_node_name env p.2⟩
  · rw [myinfo_node_texts, hone]

/-- C17: the record of an in-list entry carries, field by field in the order
written, the id, the title, the media-type label, the episode count, 0, the
last watched episode, the two dates as text, two empty placeholders, the
translated score, two empty placeholders, the status label, the notes, the
rewatch count, an empty placeholder, 0, the tags, the rewatching flag as 0 or
1, the rewatch episode, and 1 or 0 for a queued change. -/
theorem xml_record_values (env : Env) (items : Items) (p : Int × Item)
    (hp : p ∈ items) (hin : p.2.IsInList = true) :
    anime_node env p.2 ∈ animeRecords (MalXmlDocument env items)
      ∧ source_field_order.map (fun name => (name, (anime_node env p.2).childText name))
        = [("series_animedb_id", some (ToWstr p.2.GetId)),
           ("series_title", some p.2.GetTitle),
           ("series_type", some (tr_series_type env p.2.GetType)),
           ("series_episodes", some (ToWstr p.2.GetEpisodeCount)),
           ("my_id", some "0"),
           ("my_watched_episodes", some (ToWstr p.2.GetMyLastWatchedEpisode)),
           ("my_start_date", some (Date.to_string env.renderDate p.2.GetMyDateStart)),
           ("my_finish_date", some (Date.to_string env.renderDate p.2.GetMyDateEnd)),
           ("my_fansub_group", some ""),
           ("my_rated", some ""),
           ("my_score", some (ToWstr (env.TranslateMyRatingTo p.2.GetMyScore))),
           ("my_dvd", some ""),
           ("my_storage", some ""),
           ("my_status", some (tr_my_status env p.2.GetMyStatus)),
           ("my_comments", some p.2.GetMyNotes),
           ("my_times_watched", some (ToWstr p.2.GetMyRewatchedTimes)),
           ("my_rewatch_value", some ""),
           ("my_downloaded_eps", some "0"),
           ("my_tags", some p.2.GetMyTags),
           ("my_rewatching", some (if p.2.GetMyRewatching then "1" else "0")),
           ("my_rewatching_ep", some (ToWstr p.2.GetMyRewatchingEp)),
           ("update_on_import", some (if env.IsQueued p.2.GetId then "1" else "0"))] := by
  have hzero : ToWstr 0 = "0" := by decide
  refine ⟨?_, ?_⟩
  · rw [animeRecords_eq]
    exact List.mem_map.2 ⟨p, List.mem_filter.2 ⟨hp, hin⟩, rfl⟩
  · rw [anime_node_texts, ToWstr_boolToInt, ToWstr_boolToInt, hzero]

/-- C17 at the sample library: the record of the entry "Alpha". -/
theorem xml_record_values_witness :
    ((2, sampleItem 2 "Alpha" 1 24 true) ∈ sampleItems
      ∧ (sampleItem 2 "Alpha" 1 24 true).IsInList = true)
    ∧ (anime_node sampleEnv (sampleItem 2 "Alpha" 1 24 true)
          ∈ animeRecords (MalXmlDocument sampleEnv sampleItems)
      ∧ source_field_order.map
          (fun name => (name, (anime_node sampleEnv (sampleItem 2 "Alpha" 1 24 true)).childText name))
        = [("series_animedb_id", some (ToWstr (sampleItem 2 "Alpha" 1 24 true).GetId)),
           ("series_title", some (sampleItem 2 "Alpha" 1 24 true).GetTitle),
           ("series_type", some (tr_series_type sampleEnv (sampleItem 2 "Alpha" 1 24 true).GetType)),
           ("series_episodes", some (ToWstr (sampleItem 2 "Alpha" 1 24 true).GetEpisodeCount)),
           ("my_id", some "0"),
           ("my_watched_episodes",
             some (ToWstr (sampleItem 2 "Alpha" 1 24 true).GetMyLastWatchedEpisode)),
           ("my_start_date",
             some (Date.to_string sampleEnv.renderDate
               (sampleItem 2 "Alpha" 1 24 true).GetMyDateStart)),
           ("my_finish_date",
             some (Date.to_string sampleEnv.renderDate
               (sampleItem 2 "Alpha" 1 24 true).GetMyDateEnd)),
           ("my_fansub_group", some ""),
           ("my_rated", some ""),
           ("my_score",
             some (ToWstr (sampleEnv.TranslateMyRatingTo
               (sampleItem 2 "Alpha" 1 24 true).GetMyScore))),
           ("my_dvd", some ""),
           ("my_storage", some ""),
           ("my_status", some (tr_my_status sampleEnv (sampleItem 2 "Alpha" 1 24 true).GetMyStatus)),
           ("my_comments", some (sampleItem 2 "Alpha" 1 24 true).GetMyNotes),
           ("my_times_watched",
             some (ToWstr (sampleItem 2 "Alpha" 1 24 true).GetMyRewatchedTimes)),
           ("my_rewatch_value", some ""),
           ("my_downloaded_eps", some "0"),
           ("my_tags", some (sampleItem 2 "Alpha" 1 24 true).GetMyTags),
           ("my_rewatching",
             some (if (sampleItem 2 "Alpha" 1 24 true).GetMyRewatching then "1" else "0")),
           ("my_rewatching_ep",
             some (ToWstr (sampleItem 2 "Alpha" 1 24 true).GetMyRewatchingEp)),
           ("update_on_import",
             some (if sampleEnv.IsQueued (sampleItem 2 "Alpha" 1 24 true).GetId
               then "1" else "0"))])
    ∧ source_field_order.map
        (fun name => (anime_node sampleEnv (sampleItem 2 "Alpha" 1 24 true)).childText name)
      = [some "2", some "Alpha", some "TV", some "24", some "0", some "3", some "", some "",
         some "", some "", some "0", some "", some "", some "Watching", some "", some "0",
         some "", some "0", some "", some "0", some "0", some "0"] :=
  ⟨⟨by decide, rfl⟩,
    xml_record_values sampleEnv sampleItems (2, sampleItem 2 "Alpha" 1 24 true) (by decide) rfl,
    by decide⟩

/-- C18: in the record of an in-list entry the elements series_title,
my_comments and my_tags each hold exactly one child, a CDATA node whose value
is the title, the notes and the tags of the entry as they are, whatever
characters they contain. -/
theorem xml_text_blocks_verbatim (env : Env) (items : Items) (p : Int × Item)
    (hp : p ∈ items) (hin : p.2.IsInList = true) :
    anime_node env p.2 ∈ animeRecords (MalXmlDocument env items)
      ∧ ["series_title", "my_comments", "my_tags"].map (fun name =>
          ((anime_node env p.2).childrenNamed name).map (fun e =>
            e.children.map (fun c => (c.type, c.value))))
        = [[[(xml_node_type.node_cdata, p.2.GetTitle)]],
           [[(xml_node_type.node_cdata, p.2.GetMyNotes)]],
           [[(xml_node_type.node_cdata, p.2.GetMyTags)]]] := by
  have hchildren : ∀ name value : String,
      (text_element name value .node_cdata).children.map (fun c => (c.type, c.value))
        = [(xml_node_type.node_cdata, value)] := fun _ _ => rfl
  refine ⟨?_, ?_⟩
  · rw [animeRecords_eq]
    exact List.mem_map.2 ⟨p, List.mem_filter.2 ⟨hp, hin⟩, rfl⟩
  · simp only [List.map_cons, List.map_nil, XmlNode.childrenNamed, anime_node_children]
    simp [text_element_name, text_element_type, hchildren]

/-- C18 at an entry whose texts hold the characters of markup and the end mark
of a CDATA section. -/
theorem xml_text_blocks_verbatim_witness :
    ((9, sampleMarkupItem) ∈ [((9 : Int), sampleMarkupItem)]
      ∧ sampleMarkupItem.IsInList = true)
    ∧ (anime_node sampleEnv sampleMarkupItem
          ∈ animeRecords (MalXmlDocument sampleEnv [(9, sampleMarkupItem)])
      ∧ ["series_title", "my_comments", "my_tags"].map (fun name =>
          ((anime_node sampleEnv sampleMarkupItem).childrenNamed name).map (fun e =>
            e.children.map (fun c => (c.type, c.value))))
        = [[[(xml_node_type.node_cdata, sampleMarkupItem.GetTitle)]],
           [[(xml_node_type.node_cdata, sampleMarkupItem.GetMyNotes)]],
           [[(xml_node_type.node_cdata, sampleMarkupItem.GetMyTags)]]])
    ∧ ["series_title", "my_comments", "my_tags"].map
        (fun name => (anime_node sampleEnv sampleMarkupItem).childText name)
      = [some "a<b & c]]>d", some "<note> & ]]>", some "x&y, <z>"] :=
  ⟨⟨List.mem_singleton.2 rfl, rfl⟩,
    xml_text_blocks_verbatim sampleEnv [(9, sampleMarkupItem)] (9, sampleMarkupItem)
      (List.mem_singleton.2 rfl) rfl,
    by decide⟩

/-- C19: the Markdown text (the layout of the sorted buckets) has a section for
a status exactly when some in-list entry has that status; no section is empty;
the number of sections is the number of distinct statuses of in-list entries;
the number of list items over all sections is the number of in-list entries. -/
theorem markdown_sections_match_statuses (env : Env) (items : Items) :
    MarkdownText env items = spec_markdown env (sorted_status_lists env items)
      ∧ (∀ status, status ∈ statusKeys (sorted_status_lists env items)
          ↔ ∃ p ∈ items, p.2.IsInList = true ∧ p.2.GetMyStatus = status)
      ∧ (∀ b ∈ sorted_status_lists env items, b.2 ≠ [])
      ∧ (sorted_status_lists env items).length
        = (((items.filter (fun p => p.2.IsInList)).map (fun p => p.2.GetMyStatus)).dedup).length
      ∧ (allLines (sorted_status_lists env items)).length
        = (items.filter (fun p => p.2.IsInList)).length := by
  refine ⟨render_status_lists_eq env _, mem_keys_sorted_status_lists env items,
    nonempty_sorted_status_lists env items, ?_, ?_⟩
  · have hkeys := keys_sorted_sorted_status_lists env items
    have hperm : (statusKeys (sorted_status_lists env items)).Perm
        (((items.filter (fun p => p.2.IsInList)).map (fun p => p.2.GetMyStatus)).dedup) := by
      rw [List.perm_ext_iff_of_nodup (hkeys.imp ne_of_lt) (List.nodup_dedup _)]
      intro k
      rw [mem_keys_sorted_status_lists, List.mem_dedup, List.mem_map]
      constructor
      · rintro ⟨p, hp, hin, hk⟩
        exact ⟨p, List.mem_filter.2 ⟨hp, hin⟩, hk⟩
      · rintro ⟨p, hp, hk⟩
        exact ⟨p, (List.mem_filter.1 hp).1, (List.mem_filter.1 hp).2, hk⟩
    have hlen := hperm.length_eq
    simpa [statusKeys] using hlen
  · have hperm : (allLines (sorted_status_lists env items)).Perm
        ((items.filter (fun p => p.2.IsInList)).map (fun p => markdown_line env p.2)) := by
      refine (allLines_sort env _).trans ?_
      rw [collect_status_lists_eq]
      simpa [allLines] using allLines_collect_from env [] items
    simpa using hperm.length_eq

/-- C20: for two orders of the same entries, with `CompareStrings(a, b, true)`
a strict weak order, the Markdown texts have the same sections, each section
lists the same lines up to order, and the two listings agree position by
position up to lines that compare equal; when no two distinct lines of in-list
entries of one status compare equal, the two texts are the same and so is
what `ExportAsMarkdown` writes and returns. -/
theorem markdown_permutation_invariant (env : Env) (items items' : Items)
    (hswo : IsStrictWeakOrder String (fun a b => env.CompareStrings a b true < 0))
    (hperm : items.Perm items') :
    statusKeys (sorted_status_lists env items') = statusKeys (sorted_status_lists env items)
      ∧ (∀ status, (bucket (sorted_status_lists env items') status).Perm
          (bucket (sorted_status_lists env items) status))
      ∧ (∀ status, List.Forall₂ (compareEqual env)
          (bucket (sorted_status_lists env items) status)
          (bucket (sorted_status_lists env items') status))
      ∧ ((∀ p ∈ items, ∀ q ∈ items, p.2.IsInList = true → q.2.IsInList = true →
            p.2.GetMyStatus = q.2.GetMyStatus →
            compareEqual env (markdown_line env p.2) (markdown_line env q.2) →
            markdown_line env p.2 = markdown_line env q.2) →
          MarkdownText env items' = MarkdownText env items
            ∧ ∀ path, ExportAsMarkdown env items' path = ExportAsMarkdown env items path) := by
  refine ⟨statusKeys_perm env items items' hperm, bucket_perm env items items' hperm,
    bucket_pointwise env items items' hswo hperm, ?_⟩
  intro hproviso
  have hbucket : ∀ status, bucket (sorted_status_lists env items) status
      = bucket (sorted_status_lists env items') status := by
    intro status
    apply eq_of_forall₂_of_imp (compareEqual env) _ _
      (bucket_pointwise env items items' hswo hperm status)
    intro x hx y hy hxy
    obtain ⟨p, hp, hpin, hps, rfl⟩ := mem_bucket_sorted_status_lists env items status x hx
    obtain ⟨q, hq, hqin, hqs, rfl⟩ := mem_bucket_sorted_status_lists env items' status y hy
    exact hproviso p hp q (hperm.mem_iff.2 hq) hpin hqin (hps.trans hqs.symm) hxy
  have hlists : sorted_status_lists env items' = sorted_status_lists env items := by
    rw [eq_map_bucket _ (keys_sorted_sorted_status_lists env items'),
      eq_map_bucket _ (keys_sorted_sorted_status_lists env items),
      statusKeys_perm env items items' hperm]
    exact List.map_congr_left (fun k _ => by rw [hbucket k])
  have htext : MarkdownText env items' = MarkdownText env items := by
    rw [MarkdownText, MarkdownText, hlists]
  refine ⟨htext, ?_⟩
  intro path
  rw [ExportAsMarkdown, ExportAsMarkdown, htext]

/-- C20 at the sample library and its reverse, whose texts are the same; the two
orders of a library with the lines "Alpha (3/24)" and "ALPHA (3/24)", which
compare equal, give two different texts. -/
theorem markdown_permutation_invariant_witness :
    (IsStrictWeakOrder String (fun a b => sampleEnv.CompareStrings a b true < 0)
      ∧ sampleItems.Perm sampleItems.reverse)
    ∧ (statusKeys (sorted_status_lists sampleEnv sampleItems.reverse)
          = statusKeys (sorted_status_lists sampleEnv sampleItems)
      ∧ (∀ status, (bucket (sorted_status_lists sampleEnv sampleItems.reverse) status).Perm
          (bucket (sorted_status_lists sampleEnv sampleItems) status))
      ∧ (∀ status, List.Forall₂ (compareEqual sampleEnv)
          (bucket (sorted_status_lists sampleEnv sampleItems) status)
          (bucket (sorted_status_lists sampleEnv sampleItems.reverse) status))
      ∧ ((∀ p ∈ sampleItems, ∀ q ∈ sampleItems, p.2.IsInList = true → q.2.IsInList = true →
            p.2.GetMyStatus = q.2.GetMyStatus →
            compareEqual sampleEnv (markdown_line sampleEnv p.2) (markdown_line sampleEnv q.2) →
            markdown_line sampleEnv p.2 = markdown_line sampleEnv q.2) →
          MarkdownText sampleEnv sampleItems.reverse = MarkdownText sampleEnv sampleItems
            ∧ ∀ path, ExportAsMarkdown sampleEnv sampleItems.reverse path
                = ExportAsMarkdown sampleEnv sampleItems path))
    ∧ MarkdownText sampleEnv sampleItems.reverse = MarkdownText sampleEnv sampleItems
    ∧ sampleItemsCaseA.Perm sampleItemsCaseB
    ∧ MarkdownText sampleEnv sampleItemsCaseA ≠ MarkdownText sampleEnv sampleItemsCaseB :=
  ⟨⟨sampleCompare_swo, (List.reverse_perm sampleItems).symm⟩,
    markdown_permutation_invariant sampleEnv sampleItems sampleItems.reverse sampleCompare_swo
      (List.reverse_perm sampleItems).symm,
    by decide, List.Perm.swap _ _ _, by decide⟩


end library
